import Mathlib

/-!
# The actor cell of `actor/context.go`

A shallow embedding of `actorCell` and its operations.

* The cell is a record with the fields of the Go struct.  The two
  `linkedliststack.Stack` fields are lists whose head is the top of the stack.
  The three `hashset.Set` fields hold handles, which are pointers: a handle is
  an identity together with an address, and two handles are the same member
  only if both agree.  A `range` over a set yields its members in an order the
  program does not fix; the order is an input, like the user code.
* Everything the cell does to the outside (messages put into other mailboxes,
  suspend and resume of the own mailbox, registry updates, spawning) is written
  to a trace of events, in program order.
* A `Receive` function is user code that is handed the cell as its `Context`.
  It is represented by a label; the environment maps a label to a program over
  the methods of the `Context` interface.  Handler invocation is re-entrant
  (`Next`, `Receive`), so running a handler takes fuel: the fuel bounds the
  nesting depth of handler invocations, `none` means the fuel ran out.
* A Go panic is an outcome `some r` next to the state; it propagates through
  every caller until a `recover`.
* `placementActor` of `cluster/partition-identity/placement_actor.go` is
  embedded next to the cell: its map of grains and its two lookup functions.
-/

namespace actor

/-! ## Values -/

/-- The handle `*PID`; the struct is declared outside the files at hand.  `Id`
is the field `SpawnNamed` reads.  `addr` stands for the pointer: the cell keeps
handles by pointer, and that is what its sets and `==` compare, so two handles
with the same `Id` and different `addr` are different members. -/
structure PID where
  Id : String
  addr : Nat
deriving DecidableEq, Repr

/-- The value a panic carries (the non-nil `interface{}` handed to `panic`, or the
text of a runtime error). -/
abbrev Reason := String

/-- A `Receive` function value, identified by a label. -/
abbrev Receive := Nat

/-- Values of type `interface{}` that travel as message payloads.  `boxed m s`
is a value whose dynamic type is the struct `UserMessage{message: m, sender: s}`;
the type assertion `msg.(UserMessage)` succeeds on these values only. -/
inductive Message where
  | null
  | Started
  | Stopping
  | Stopped
  | Restarting
  | Terminated (Who : PID)
  | value (tag : String)
  | boxed (message : Message) (sender : Option PID)
deriving DecidableEq, Repr

/-- The struct `UserMessage`. -/
structure UserMessage where
  message : Message
  sender : Option PID := none
deriving DecidableEq, Repr

/-- Modelled from the spec: the type `Directive` is declared outside the files
at hand; "directive ∈ {Resume, Restart, Stop, Escalate}". -/
inductive Directive where
  | ResumeDirective
  | RestartDirective
  | StopDirective
  | EscalateDirective
deriving DecidableEq, Repr

/-- The system messages `invokeSystemMessage` switches on; `unknown` is any
other value (the `default:` branch). -/
inductive SystemMessage where
  | stop
  | otherStopped (Who : PID)
  | watch (Watcher : PID)
  | unwatch (Watcher : PID)
  | failure (Who : PID) (Reason : Reason)
  | restart
  | resume
  | unknown (tag : String)
deriving DecidableEq, Repr

/-- A supervisor strategy: the package default, or one a user supplied. -/
inductive SupervisionStrategy where
  | defaultSupervisionStrategy
  | strategy (n : Nat)
deriving DecidableEq, Repr

/-- The construction recipe of an actor: which producer makes the instance,
which supervisor strategy it gets, and the receive middleware (the Go field is
spelled `receivePluins`). -/
structure Props where
  producer : Nat
  supervisor : SupervisionStrategy
  receivePluins : List Receive
deriving DecidableEq, Repr

/-- An actor instance: which instance it is, and its `Receive` method value. -/
structure Actor where
  inst : Nat
  Receive : Receive
deriving DecidableEq, Repr

/-- What the cell does to the outside, and two markers: `dispatch` is written
when `invokeUserMessage` is entered, `invoke` when a receive function is
called. -/
inductive Event where
  | sendSystemMessage (target : PID) (msg : SystemMessage)
  | suspend (pid : PID)
  | resume (pid : PID)
  | unregisterPID (pid : PID)
  | spawn (pid : PID) (props : Props) (parent : PID)
  | dispatch (md : UserMessage)
  | invoke (receive : Receive) (message : Message) (sender : Option PID)
deriving DecidableEq, Repr

/-! ## Sets and stacks -/

/-- The `hashset.Set` of the cell, whose members are `*PID` pointers: the
members, without duplicates.  The order of `items` has no meaning for the
program; see `Values`. -/
structure hashset where
  items : List PID
  nodup : items.Nodup

namespace hashset

instance : DecidableEq hashset := fun a b =>
  match a, b with
  | ⟨x, _⟩, ⟨y, _⟩ =>
    if h : x = y then isTrue (by subst h; rfl) else isFalse (fun e => h (by cases e; rfl))

def New : hashset := ⟨[], List.nodup_nil⟩

def Contains (s : hashset) (p : PID) : Bool := decide (p ∈ s.items)

def Add (s : hashset) (p : PID) : hashset :=
  if h : p ∈ s.items then s
  else ⟨s.items ++ [p], by
    rw [List.nodup_append]
    refine ⟨s.nodup, List.nodup_singleton p, ?_⟩
    intro a ha hb
    rw [List.mem_singleton] at hb
    subst hb
    exact h ha⟩

def Remove (s : hashset) (p : PID) : hashset :=
  ⟨s.items.erase p, s.nodup.erase p⟩

/-- `Values`: the members in the order in which this call ranges over the Go
map; `range` is that order, some rearrangement of the members. -/
def Values (s : hashset) (range : List PID → List PID) : List PID := range s.items

def Empty (s : hashset) : Bool := s.items.isEmpty

end hashset

/-! ## The cell and its surroundings -/

/-- The struct `actorCell`.  `stash` is `none` while the Go field is `nil`.
`self` is the handle `spawn` stored in the cell before the first dispatch. -/
structure actorCell where
  message : Message
  sender : Option PID
  parent : Option PID
  self : PID
  actor : Actor
  props : Props
  supervisor : SupervisionStrategy
  behavior : List Receive
  children : hashset
  watchers : hashset
  watching : hashset
  stash : Option (List Message)
  receivePlugins : List Receive
  receiveIndex : Nat
  stopping : Bool
deriving DecidableEq

/-- What lives outside the cell: the identities in `ProcessRegistry`, its
auto-id counter, how many actor instances the producers have made so far, the
trace of events, and the address the next allocated handle gets. -/
structure World where
  registry : List String
  autoId : Nat
  produced : Nat
  trace : List Event
  nextAddr : Nat
deriving DecidableEq

/-- A cell together with the world it runs in. -/
structure State where
  cell : actorCell
  world : World
deriving DecidableEq

/-- Append an event to the trace. -/
def State.emit (s : State) (e : Event) : State :=
  { s with world := { s.world with trace := s.world.trace ++ [e] } }

/-- A state after running code, or `none` when the fuel ran out; `some r` next
to the state is a panic with value `r` that is still propagating. -/
abbrev Result := Option (State × Option Reason)

/-- Sequencing: run `f` after `r` unless `r` ran out of fuel or panicked. -/
def Result.andThen (r : Result) (f : State → Result) : Result :=
  match r with
  | none => none
  | some (s, some e) => some (s, some e)
  | some (s, none) => f s

/-- A receive function: code written against the `Context` interface.  Each
constructor but the first three is a call of the method of the same name,
followed by the rest of the function; `inspect` reads the context (`Message()`,
`Sender()`, `Self()`, `Parent()`, `Children()`, `Actor()`) and whatever else
the function can observe. -/
inductive Prog where
  | ret
  | panic (r : Reason)
  | inspect (k : State → Prog)
  | Watch (who : PID) (k : Prog)
  | Unwatch (who : PID) (k : Prog)
  | Become (behavior : Receive) (k : Prog)
  | BecomeStacked (behavior : Receive) (k : Prog)
  | UnbecomeStacked (k : Prog)
  | Spawn (props : Props) (k : PID → Prog)
  | SpawnNamed (props : Props) (name : String) (k : PID → Prog)
  | Next (k : Prog)
  | Receive (message : Message) (k : Prog)
  | Stash (k : Prog)

/-- What the cell does not decide itself: the body of every receive function,
the actor a producer returns on its `n`-th call overall, the decider of every
user-supplied supervisor strategy, and the order in which a `range` over a set
yields its members (`range n l` rearranges `l`; `n` tells the calls apart, the
cell passes the length of the trace). -/
structure Env where
  code : Receive → Prog
  ProduceActor : Props → Nat → Actor
  decider : Nat → PID → Reason → Directive
  range : Nat → List PID → List PID := fun _ l => l
  range_perm : ∀ n l, (range n l).Perm l := by intro n l; exact List.Perm.refl l

/-- Modelled from the spec: the strategies are declared outside the files at
hand; the default is "one-for-one with restart directive", a user strategy
answers with its decider. -/
def Env.Handle (env : Env) : SupervisionStrategy → PID → Reason → Directive
  | .defaultSupervisionStrategy, _, _ => .RestartDirective
  | .strategy n, who, reason => env.decider n who reason

/-! ## Handle methods and registry (declared outside the files at hand) -/

/-- The method `pid.sendSystemMessage(msg)`: the message goes to the mailbox
of `pid`. -/
def PID.sendSystemMessage (pid : PID) (msg : SystemMessage) (s : State) : State :=
  s.emit (.sendSystemMessage pid msg)

/-- Modelled from the spec: `PID.Stop` is declared outside the files at hand;
"Stop: send `Stop` to the child". -/
def PID.Stop (pid : PID) (s : State) : State :=
  pid.sendSystemMessage .stop s

/-- The method `pid.suspend()`: user delivery of the mailbox pauses. -/
def PID.suspend (pid : PID) (s : State) : State := s.emit (.suspend pid)

/-- The method `pid.resume()`: user delivery of the mailbox resumes. -/
def PID.resume (pid : PID) (s : State) : State := s.emit (.resume pid)

/-- Modelled from the spec: `ProcessRegistry.unregisterPID` is declared outside
the files at hand; "`unregister(id)`" removes the identity from the registry. -/
def unregisterPID (pid : PID) (s : State) : State :=
  ({ s with world := { s.world with registry := s.world.registry.filter (· ≠ pid.Id) } }).emit
    (.unregisterPID pid)

/-- Modelled from the spec: `ProcessRegistry.getAutoId` is declared outside the
files at hand; "Auto-ids are monotonically increasing with a prefix
distinguishing them from user-named actors". -/
def getAutoId (s : State) : String × State :=
  ("$" ++ toString s.world.autoId, { s with world := { s.world with autoId := s.world.autoId + 1 } })

/-- Modelled from the spec: `spawn` is declared outside the files at hand; "the
new cell is constructed, registered" under the identity it is given, and a
newly allocated handle of that identity is returned. -/
def spawn (id : String) (props : Props) (parent : PID) (s : State) : PID × State :=
  (⟨id, s.world.nextAddr⟩,
    ({ s with world := { s.world with
        registry := if id ∈ s.world.registry then s.world.registry else s.world.registry ++ [id]
        nextAddr := s.world.nextAddr + 1 } }).emit
      (.spawn ⟨id, s.world.nextAddr⟩ props parent))

/-! ## Context methods -/

namespace actorCell

/-- `Stash`: push the current message. -/
def Stash (s : State) : State :=
  { s with cell := { s.cell with stash := some (s.cell.message :: (s.cell.stash.getD [])) } }

/-- `Become`: clear the behavior stack and push. -/
def Become (behavior : Receive) (s : State) : State :=
  { s with cell := { s.cell with behavior := [behavior] } }

/-- `BecomeStacked`: push. -/
def BecomeStacked (behavior : Receive) (s : State) : State :=
  { s with cell := { s.cell with behavior := behavior :: s.cell.behavior } }

/-- `UnbecomeStacked`: panic when at most one behavior is left, else pop. -/
def UnbecomeStacked (s : State) : State × Option Reason :=
  if s.cell.behavior.length ≤ 1 then
    (s, some "Can not unbecome actor base behavior")
  else
    ({ s with cell := { s.cell with behavior := s.cell.behavior.tail } }, none)

/-- `Watch`: tell `who` to add this cell to its watchers, remember `who`. -/
def Watch (who : PID) (s : State) : State :=
  let s1 := who.sendSystemMessage (.watch s.cell.self) s
  { s1 with cell := { s1.cell with watching := s1.cell.watching.Add who } }

/-- `Unwatch`: tell `who` to drop this cell from its watchers, forget `who`. -/
def Unwatch (who : PID) (s : State) : State :=
  let s1 := who.sendSystemMessage (.unwatch s.cell.self) s
  { s1 with cell := { s1.cell with watching := s1.cell.watching.Remove who } }

/-- `SpawnNamed`: the full name is built from `cell.parent`, the new cell gets
`cell.self` as its parent. -/
def SpawnNamed (props : Props) (name : String) (s : State) : PID × State :=
  let fullName :=
    match s.cell.parent with
    | some parent => parent.Id ++ "/" ++ name
    | none => name
  let (pid, s1) := spawn fullName props s.cell.self s
  let s2 := { s1 with cell := { s1.cell with children := s1.cell.children.Add pid } }
  (pid, Watch pid s2)

/-- `Spawn`: `SpawnNamed` under an auto-id. -/
def Spawn (props : Props) (s : State) : PID × State :=
  let (id, s1) := getAutoId s
  SpawnNamed props id s1

/-- `Receive`: a nested dispatch of `message` from index 0; index and message
are put back when the nested dispatch returns normally. -/
def Receive (next : State → Result) (message : Message) (s : State) : Result :=
  let i := s.cell.receiveIndex
  let m := s.cell.message
  (next { s with cell := { s.cell with receiveIndex := 0, message := message } }).andThen
    fun s1 => some ({ s1 with cell := { s1.cell with receiveIndex := i, message := m } }, none)

end actorCell

/-- Run a receive function on the cell; `next` is what `cell.Next()` does. -/
def Prog.run (next : State → Result) : Prog → State → Result
  | .ret, s => some (s, none)
  | .panic r, s => some (s, some r)
  | .inspect k, s => (k s).run next s
  | .Watch who k, s => k.run next (actorCell.Watch who s)
  | .Unwatch who k, s => k.run next (actorCell.Unwatch who s)
  | .Become b k, s => k.run next (actorCell.Become b s)
  | .BecomeStacked b k, s => k.run next (actorCell.BecomeStacked b s)
  | .UnbecomeStacked k, s =>
    match actorCell.UnbecomeStacked s with
    | (s1, some r) => some (s1, some r)
    | (s1, none) => k.run next s1
  | .Spawn props k, s =>
    match actorCell.Spawn props s with
    | (pid, s1) => (k pid).run next s1
  | .SpawnNamed props name k, s =>
    match actorCell.SpawnNamed props name s with
    | (pid, s1) => (k pid).run next s1
  | .Next k, s => (next s).andThen (k.run next)
  | .Receive m k, s => (actorCell.Receive next m s).andThen (k.run next)
  | .Stash k, s => k.run next (actorCell.Stash s)

namespace actorCell

/-- `Next`: the receive function at the middleware index, else the top of the
behavior stack (whose type assertion panics on an empty stack), is called with
the cell.  One unit of fuel per nested call. -/
def Next (env : Env) : Nat → State → Result
  | 0, _ => none
  | fuel + 1, s =>
    match s.cell.receivePlugins[s.cell.receiveIndex]? with
    | some receive =>
      let s1 := { s with cell := { s.cell with receiveIndex := s.cell.receiveIndex + 1 } }
      (env.code receive).run (Next env fuel) (s1.emit (.invoke receive s1.cell.message s1.cell.sender))
    | none =>
      match s.cell.behavior.head? with
      | none => some (s, some "interface conversion: interface is nil, not actor.Receive")
      | some receive =>
        (env.code receive).run (Next env fuel) (s.emit (.invoke receive s.cell.message s.cell.sender))

/-- `incarnateActor`: a new instance from the producer of the props becomes
the actor, its `Receive` the only behavior. -/
def incarnateActor (env : Env) (s : State) : State :=
  let actor := env.ProduceActor s.cell.props s.world.produced
  let s1 := { s with
    cell := { s.cell with actor := actor }
    world := { s.world with produced := s.world.produced + 1 } }
  Become actor.Receive s1

end actorCell

/-- `handleRootFailure`: the directive of `supervisor` for the failure is
carried out on the failing handle; escalation panics. -/
def handleRootFailure (env : Env) (Who : PID) (reason : Reason)
    (supervisor : SupervisionStrategy) (s : State) : Result :=
  match env.Handle supervisor Who reason with
  | .ResumeDirective => some (Who.sendSystemMessage .resume s, none)
  | .RestartDirective => some (Who.sendSystemMessage .restart s, none)
  | .StopDirective => some (Who.Stop s, none)
  | .EscalateDirective => some (s, some "Can not escalate root level failures")

namespace actorCell

/-- `invokeUserMessage`: index, message and sender are set, the chain runs from
`Next`; a panic of the chain is recovered: at the root it goes to
`handleRootFailure`, else the cell suspends itself and reports the failure to
its parent. -/
def invokeUserMessage (env : Env) (fuel : Nat) (md : UserMessage) (s : State) : Result :=
  let s0 := ({ s with cell := { s.cell with
    receiveIndex := 0, message := md.message, sender := md.sender } }).emit (.dispatch md)
  match Next env fuel s0 with
  | none => none
  | some (s1, none) => some (s1, none)
  | some (s1, some r) =>
    match s1.cell.parent with
    | none => handleRootFailure env s1.cell.self r .defaultSupervisionStrategy s1
    | some parent =>
      some (parent.sendSystemMessage (.failure s1.cell.self r) (s1.cell.self.suspend s1), none)

/-- The loop of `restart` over the stash, entered when the stash is not nil:
while it is not empty, pop, assert that the value is a `UserMessage`, dispatch
it.  `n` bounds the number of iterations. -/
def drainStash (env : Env) (fuel : Nat) : Nat → State → Result
  | n, s =>
    match s.cell.stash with
    | none => some (s, none)
    | some [] => some (s, none)
    | some (msg :: rest) =>
      match n with
      | 0 => none
      | n + 1 =>
        let s1 := { s with cell := { s.cell with stash := some rest } }
        match msg with
        | .boxed message sender =>
          (invokeUserMessage env fuel ⟨message, sender⟩ s1).andThen (drainStash env fuel n)
        | _ => some (s1, some "interface conversion: interface {} is not actor.UserMessage")

/-- `restart`: incarnate, deliver `Started`, then drain the stash if there is
one. -/
def restart (env : Env) (fuel : Nat) (s : State) : Result :=
  (invokeUserMessage env fuel ⟨.Started, none⟩ (incarnateActor env s)).andThen
    (drainStash env fuel fuel)

/-- `stopped`: unregister, deliver `Stopped`, tell every watcher. -/
def stopped (env : Env) (fuel : Nat) (s : State) : Result :=
  (invokeUserMessage env fuel ⟨.Stopped, none⟩ (unregisterPID s.cell.self s)).andThen fun s1 =>
    some ((s1.cell.watchers.Values (env.range s1.world.trace.length)).foldl
      (fun acc watcher => watcher.sendSystemMessage (.otherStopped s1.cell.self) acc) s1, none)

/-- `tryRestartOrTerminate`: nothing while children are left; then restart
unless stopping, else finish the stop. -/
def tryRestartOrTerminate (env : Env) (fuel : Nat) (s : State) : Result :=
  if !s.cell.children.Empty then some (s, none)
  else if !s.cell.stopping then restart env fuel s
  else stopped env fuel s

/-- `handleStop`. -/
def handleStop (env : Env) (fuel : Nat) (s : State) : Result :=
  (invokeUserMessage env fuel ⟨.Stopping, none⟩
      { s with cell := { s.cell with stopping := true } }).andThen fun s1 =>
    tryRestartOrTerminate env fuel
      ((s1.cell.children.Values (env.range s1.world.trace.length)).foldl
        (fun acc child => child.Stop acc) s1)

/-- `handleOtherStopped`. -/
def handleOtherStopped (env : Env) (fuel : Nat) (Who : PID) (s : State) : Result :=
  tryRestartOrTerminate env fuel
    { s with cell := { s.cell with
        children := s.cell.children.Remove Who
        watching := s.cell.watching.Remove Who } }

/-- `handleFailure`: the directive of the cell's supervisor is carried out on
the failing child, escalation hands the same failure to the parent (a nil
parent is dereferenced). -/
def handleFailure (env : Env) (Who : PID) (reason : Reason) (s : State) : Result :=
  match env.Handle s.cell.supervisor Who reason with
  | .ResumeDirective => some (Who.sendSystemMessage .resume s, none)
  | .RestartDirective => some (Who.sendSystemMessage .restart s, none)
  | .StopDirective => some (Who.Stop s, none)
  | .EscalateDirective =>
    match s.cell.parent with
    | some parent => some (parent.sendSystemMessage (.failure Who reason) s, none)
    | none => some (s, some "invalid memory address or nil pointer dereference")

/-- `handleRestart`. -/
def handleRestart (env : Env) (fuel : Nat) (s : State) : Result :=
  (invokeUserMessage env fuel ⟨.Restarting, none⟩
      { s with cell := { s.cell with stopping := false } }).andThen fun s1 =>
    tryRestartOrTerminate env fuel
      ((s1.cell.children.Values (env.range s1.world.trace.length)).foldl
        (fun acc child => child.Stop acc) s1)

/-- `invokeSystemMessage`. -/
def invokeSystemMessage (env : Env) (fuel : Nat) (message : SystemMessage) (s : State) : Result :=
  match message with
  | .stop => handleStop env fuel s
  | .otherStopped Who => handleOtherStopped env fuel Who s
  | .watch Watcher => some ({ s with cell := { s.cell with watchers := s.cell.watchers.Add Watcher } }, none)
  | .unwatch Watcher => some ({ s with cell := { s.cell with watchers := s.cell.watchers.Remove Watcher } }, none)
  | .failure Who reason => handleFailure env Who reason s
  | .restart => handleRestart env fuel s
  | .resume => some (s.cell.self.resume s, none)
  | .unknown _ => some (s, none)

end actorCell

/-! ## What receive functions and dispatches leave alone -/

/-- The events a receive function causes through the context: invocations of
receive functions, spawns, and the watch and unwatch requests. -/
def Event.fromContext : Event → Bool
  | .invoke _ _ _ => true
  | .spawn _ _ _ => true
  | .sendSystemMessage _ (.watch _) => true
  | .sendSystemMessage _ (.unwatch _) => true
  | _ => false

/-- What running receive functions leaves alone. -/
structure Frame (s s' : State) : Prop where
  self : s'.cell.self = s.cell.self
  parent : s'.cell.parent = s.cell.parent
  props : s'.cell.props = s.cell.props
  supervisor : s'.cell.supervisor = s.cell.supervisor
  watchers : s'.cell.watchers = s.cell.watchers
  stopping : s'.cell.stopping = s.cell.stopping
  receivePlugins : s'.cell.receivePlugins = s.cell.receivePlugins
  actor : s'.cell.actor = s.cell.actor
  sender : s'.cell.sender = s.cell.sender
  produced : s'.world.produced = s.world.produced
  trace : ∃ evs, s'.world.trace = s.world.trace ++ evs ∧ ∀ e ∈ evs, Event.fromContext e = true

/-- The events one user dispatch adds after its marker: what the receive
functions cause through the context, and what the recovery of a panic adds. -/
def Event.fromDispatch : Event → Bool
  | .suspend _ => true
  | .sendSystemMessage _ (.failure _ _) => true
  | .sendSystemMessage _ .restart => true
  | e => e.fromContext

/-- What one user dispatch of `md` does to the state. -/
structure Dispatched (md : UserMessage) (s s' : State) : Prop where
  self : s'.cell.self = s.cell.self
  parent : s'.cell.parent = s.cell.parent
  props : s'.cell.props = s.cell.props
  supervisor : s'.cell.supervisor = s.cell.supervisor
  watchers : s'.cell.watchers = s.cell.watchers
  stopping : s'.cell.stopping = s.cell.stopping
  receivePlugins : s'.cell.receivePlugins = s.cell.receivePlugins
  actor : s'.cell.actor = s.cell.actor
  produced : s'.world.produced = s.world.produced
  trace : ∃ evs, s'.world.trace = s.world.trace ++ .dispatch md :: evs ∧
    ∀ e ∈ evs, Event.fromDispatch e = true

/-! ## Sample cells -/

/-- A cell with the given handle and parent, one behavior, and nothing else. -/
def sampleCell (self : PID) (parent : Option PID) : actorCell :=
  { message := .null, sender := none, parent := parent, self := self,
    actor := ⟨0, 0⟩, props := ⟨0, .defaultSupervisionStrategy, []⟩,
    supervisor := .defaultSupervisionStrategy, behavior := [0],
    children := hashset.New, watchers := hashset.New, watching := hashset.New,
    stash := none, receivePlugins := [], receiveIndex := 0, stopping := false }

/-- An empty world. -/
def sampleWorld : World :=
  { registry := [], autoId := 0, produced := 0, trace := [], nextAddr := 100 }

/-- User code that does nothing: every receive function returns at once. -/
def quietEnv : Env :=
  { code := fun _ => .ret
    ProduceActor := fun _ n => ⟨n, 0⟩
    decider := fun _ _ _ => .RestartDirective }

/-! ## Observations on states and traces -/

/-- The user messages `invokeUserMessage` was entered with, in order. -/
def dispatched (t : List Event) : List UserMessage :=
  t.filterMap fun e => match e with
    | .dispatch md => some md
    | _ => none

/-- The messages the receive functions were called with, in order. -/
def invoked (t : List Event) : List Message :=
  t.filterMap fun e => match e with
    | .invoke _ m _ => some m
    | _ => none

/-- A `UserMessage` as an `interface{}` value. -/
def UserMessage.box (md : UserMessage) : Message := .boxed md.message md.sender

/-- User code in the manner of `endpointWriter.sendEnvelopes` when the send
fails: on a batch the receive function stashes the message and panics. -/
def writerEnv : Env :=
  { code := fun _ => .inspect fun s =>
      match s.cell.message with
      | .value _ => .Stash (.panic "restart")
      | _ => .ret
    ProduceActor := fun _ n => ⟨n, 0⟩
    decider := fun _ _ _ => .RestartDirective }

/-- A root cell with one child `c` that watches `c` and a peer `w`. -/
def watchingCell : actorCell :=
  { sampleCell ⟨"a", 1⟩ none with
    children := hashset.New.Add ⟨"c", 4⟩
    watching := (hashset.New.Add ⟨"w", 8⟩).Add ⟨"c", 4⟩ }

/-- User code whose receive functions call `Become` when they see `Started`. -/
def becomingEnv : Env :=
  { code := fun _ => .inspect fun s =>
      match s.cell.message with
      | .Started => .Become 7 .ret
      | _ => .ret
    ProduceActor := fun _ n => ⟨n, 0⟩
    decider := fun _ _ _ => .RestartDirective }

/-! ## Construction and behavior calls -/

/-- Modelled from the spec: the receive function `AutoReceive` is declared
outside the files at hand; it is the "implicit tail handler" that
`NewActorCell` appends to the middleware of the props.  This is its label; its
body is part of the user code map like that of any other receive function. -/
def AutoReceive : Receive := 0

/-- `NewActorCell`: the fields the Go literal sets, the rest zero, then
`incarnateActor`.  `self` is the handle `spawn` stores in the new cell. -/
def NewActorCell (env : Env) (props : Props) (parent : Option PID) (self : PID)
    (world : World) : State :=
  actorCell.incarnateActor env
    { cell :=
        { message := .null, sender := none, parent := parent, self := self,
          actor := ⟨0, 0⟩, props := props, supervisor := props.supervisor,
          behavior := [], children := hashset.New, watchers := hashset.New,
          watching := hashset.New, stash := none,
          receivePlugins := props.receivePluins ++ [AutoReceive],
          receiveIndex := 0, stopping := false }
      world := world }

/-- A call of one of the three behavior methods of the context. -/
inductive BehaviorCall where
  | Become (behavior : Receive)
  | BecomeStacked (behavior : Receive)
  | UnbecomeStacked
deriving DecidableEq, Repr

/-- The state after the call, whether it returned or panicked. -/
def BehaviorCall.apply : BehaviorCall → State → State
  | .Become h, s => actorCell.Become h s
  | .BecomeStacked h, s => actorCell.BecomeStacked h s
  | .UnbecomeStacked, s => (actorCell.UnbecomeStacked s).1

/-! ## The placement actor, and relations for the context -/

/-- The struct `GrainMeta` is declared outside the files at hand; these are the
two fields `placement_actor.go` reads. -/
structure GrainMeta where
  ID : String
  PID : PID
deriving DecidableEq, Repr

/-- The event `clustering.ActivationTerminated`. -/
structure ActivationTerminated where
  Pid : PID
  ClusterIdentity : String
deriving DecidableEq, Repr

/-- The struct `placementActor`: the map `actors` as a list of entries with
distinct keys, in the order the `range` loop visits them, and the events handed
to `MemberList.BroadcastEvent` so far. -/
structure placementActor where
  actors : List (String × GrainMeta)
  broadcast : List ActivationTerminated
deriving DecidableEq, Repr

/-- `pidToMeta`: the first entry the loop visits whose handle is the pointer
`pid` (`v.PID == pid` compares pointers); `none` is a nil pointer. -/
def placementActor.pidToMeta (p : placementActor) (pid : PID) :
    Bool × Option String × Option GrainMeta :=
  match p.actors.find? (fun kv => decide (kv.2.PID = pid)) with
  | some (k, v) => (true, some k, some v)
  | none => (false, none, none)

/-- `onTerminated`: `meta.ID` is read before `found` is looked at, so a nil
`meta` panics; then the event is broadcast and, if found, the key deleted. -/
def placementActor.onTerminated (p : placementActor) (Who : PID) :
    placementActor × Option Reason :=
  match p.pidToMeta Who with
  | (found, key, meta) =>
    match meta with
    | none => (p, some "invalid memory address or nil pointer dereference")
    | some m =>
      let p1 := { p with broadcast := p.broadcast ++ [⟨Who, m.ID⟩] }
      if found then
        match key with
        | none => (p1, some "invalid memory address or nil pointer dereference")
        | some k => ({ p1 with actors := p1.actors.filter (fun kv => decide (kv.1 ≠ k)) }, none)
      else (p1, none)

/-- A relation between a state and a later one that holds across every method
of the context, across the moves of index and message that `Next` and `Receive`
make, and across the call of a receive function. -/
structure ContextClosed (R : State → State → Prop) : Prop where
  refl : ∀ s, R s s
  trans : ∀ a b c, R a b → R b c → R a c
  Watch : ∀ who s, R s (actorCell.Watch who s)
  Unwatch : ∀ who s, R s (actorCell.Unwatch who s)
  Become : ∀ b s, R s (actorCell.Become b s)
  BecomeStacked : ∀ b s, R s (actorCell.BecomeStacked b s)
  UnbecomeStacked : ∀ s, R s (actorCell.UnbecomeStacked s).1
  Spawn : ∀ props s, R s (actorCell.Spawn props s).2
  SpawnNamed : ∀ props name s, R s (actorCell.SpawnNamed props name s).2
  Stash : ∀ s, R s (actorCell.Stash s)
  position : ∀ i m (s : State),
    R s { s with cell := { s.cell with receiveIndex := i, message := m } }
  invoke : ∀ receive (s : State), R s (s.emit (.invoke receive s.cell.message s.cell.sender))

/-- The sender stays, and every receive function called in between sees it. -/
def SenderKept (s s' : State) : Prop :=
  s'.cell.sender = s.cell.sender ∧
  ∃ evs, s'.world.trace = s.world.trace ++ evs ∧
    ∀ r m sd, Event.invoke r m sd ∈ evs → sd = s.cell.sender

/-- The children afterwards are the children before and the handles spawned in
between. -/
def Grown (s s' : State) : Prop :=
  ∃ evs, s'.world.trace = s.world.trace ++ evs ∧
    ∀ p : PID, p ∈ s'.cell.children.items ↔
      p ∈ s.cell.children.items ∨ ∃ props parent, Event.spawn p props parent ∈ evs

/-- A cell in the middle of a dispatch: index 1, message `outer` from `b`. -/
def midDispatch : State :=
  ⟨{ sampleCell ⟨"a", 1⟩ none with
      receiveIndex := 1, message := .value "outer", sender := some ⟨"b", 3⟩ }, sampleWorld⟩

/-- The receive functions called, each with the message it was called with, in
order. -/
def invocations (t : List Event) : List (Receive × Message) :=
  t.filterMap fun e => match e with
    | .invoke r m _ => some (r, m)
    | _ => none

/-- A receive function that returns normally without calling `Next`, `Receive`
or a behavior method, whatever it observes. -/
inductive Prog.Quiet : Prog → Prop where
  | ret : Prog.Quiet .ret
  | inspect (k : State → Prog) : (∀ s, Prog.Quiet (k s)) → Prog.Quiet (.inspect k)
  | Watch (who : PID) (k : Prog) : Prog.Quiet k → Prog.Quiet (.Watch who k)
  | Unwatch (who : PID) (k : Prog) : Prog.Quiet k → Prog.Quiet (.Unwatch who k)
  | Stash (k : Prog) : Prog.Quiet k → Prog.Quiet (.Stash k)
  | Spawn (props : Props) (k : PID → Prog) :
      (∀ pid, Prog.Quiet (k pid)) → Prog.Quiet (.Spawn props k)
  | SpawnNamed (props : Props) (name : String) (k : PID → Prog) :
      (∀ pid, Prog.Quiet (k pid)) → Prog.Quiet (.SpawnNamed props name k)

/-- A receive function that calls `Next` exactly once on every path, and is
quiet before and after. -/
inductive Prog.CallsNextOnce : Prog → Prop where
  | Next (k : Prog) : Prog.Quiet k → Prog.CallsNextOnce (.Next k)
  | inspect (k : State → Prog) :
      (∀ s, Prog.CallsNextOnce (k s)) → Prog.CallsNextOnce (.inspect k)
  | Watch (who : PID) (k : Prog) : Prog.CallsNextOnce k → Prog.CallsNextOnce (.Watch who k)
  | Unwatch (who : PID) (k : Prog) : Prog.CallsNextOnce k → Prog.CallsNextOnce (.Unwatch who k)
  | Stash (k : Prog) : Prog.CallsNextOnce k → Prog.CallsNextOnce (.Stash k)
  | Spawn (props : Props) (k : PID → Prog) :
      (∀ pid, Prog.CallsNextOnce (k pid)) → Prog.CallsNextOnce (.Spawn props k)
  | SpawnNamed (props : Props) (name : String) (k : PID → Prog) :
      (∀ pid, Prog.CallsNextOnce (k pid)) → Prog.CallsNextOnce (.SpawnNamed props name k)

/-- What quiet code leaves alone: the chain, the position in it, the current
message and sender, and the record of calls. -/
structure Chain (s s' : State) : Prop where
  receivePlugins : s'.cell.receivePlugins = s.cell.receivePlugins
  receiveIndex : s'.cell.receiveIndex = s.cell.receiveIndex
  behavior : s'.cell.behavior = s.cell.behavior
  message : s'.cell.message = s.cell.message
  sender : s'.cell.sender = s.cell.sender
  calls : invocations s'.world.trace = invocations s.world.trace

/-- User code for a chain: the receive function 9 returns at once, every other
one calls `Next` and returns. -/
def chainEnv : Env :=
  { code := fun r => if r = 9 then .ret else .Next .ret
    ProduceActor := fun _ n => ⟨n, 9⟩
    decider := fun _ _ _ => .RestartDirective }

/-! ## Dispatches, the watching set, and sample cells with middleware -/

/-- The receive function a user dispatch calls first: the first of the receive
list, else the top of the behavior stack (what `Next` picks at index 0). -/
def actorCell.chainHead (c : actorCell) : Option actor.Receive :=
  match c.receivePlugins[0]? with
  | some receive => some receive
  | none => c.behavior.head?

/-- The events of a run of user dispatches, one after the other: for each
dispatch its marker, then the call of the receive function `first` with the
dispatched message and sender, then what that dispatch causes. -/
inductive Delivered : List (Receive × UserMessage) → List Event → Prop where
  | nil : Delivered [] []
  | cons (first : Receive) (md : UserMessage) (body : List Event)
      (calls : List (Receive × UserMessage)) (rest : List Event) :
      (∀ e ∈ body, Event.fromDispatch e = true) → Delivered calls rest →
      Delivered ((first, md) :: calls)
        (.dispatch md :: .invoke first md.message md.sender :: (body ++ rest))

/-- The receive list stays, and a non-empty behavior stack stays non-empty. -/
def HeadKept (s s' : State) : Prop :=
  s'.cell.receivePlugins = s.cell.receivePlugins ∧
  (s.cell.behavior ≠ [] → s'.cell.behavior ≠ [])

/-- The watching set afterwards against the one before: a handle that came in
was sent a `Watch` in between, a handle that went out an `Unwatch`. -/
def Watching (s s' : State) : Prop :=
  ∃ evs, s'.world.trace = s.world.trace ++ evs ∧
    (∀ p : PID, p ∈ s'.cell.watching.items →
      p ∈ s.cell.watching.items ∨ ∃ w, Event.sendSystemMessage p (.watch w) ∈ evs) ∧
    (∀ p : PID, p ∈ s.cell.watching.items →
      p ∈ s'.cell.watching.items ∨ ∃ w, Event.sendSystemMessage p (.unwatch w) ∈ evs)

/-- A relation that holds across a user dispatch and across the loop over the
stash: across everything the context offers, across the entry of a dispatch,
across a pop of the stash, and across anything that leaves the cell alone and
adds to the trace. -/
structure DispatchClosed (R : State → State → Prop) : Prop where
  context : ContextClosed R
  enter : ∀ (s : State) (md : UserMessage),
    R s (({ s with cell := { s.cell with
      receiveIndex := 0, message := md.message, sender := md.sender } }).emit (.dispatch md))
  stash : ∀ (s : State) st, R s { s with cell := { s.cell with stash := st } }
  outside : ∀ (a b c : State), R a b → c.cell = b.cell →
    (∃ tail, c.world.trace = b.world.trace ++ tail ∧ ∀ e ∈ tail, Event.fromContext e = false) →
    R a c

/-- The user code of `chainEnv`, under a `range` that yields the members of a
set last to first. -/
def reverseEnv : Env :=
  { code := chainEnv.code
    ProduceActor := chainEnv.ProduceActor
    decider := chainEnv.decider
    range := fun _ l => l.reverse
    range_perm := fun _ l => List.reverse_perm l }

/-- A cell as `NewActorCell` makes it, with one middleware entry before
`AutoReceive`, registered as `a` under the parent `p`; then two watchers and
two children were added. -/
def busyCell : State :=
  let s := NewActorCell reverseEnv ⟨0, .defaultSupervisionStrategy, [1]⟩ (some ⟨"p", 6⟩) ⟨"a", 1⟩
    { sampleWorld with registry := ["p", "a"] }
  { s with cell := { s.cell with
      watchers := (hashset.New.Add ⟨"w", 8⟩).Add ⟨"x", 10⟩
      children := (hashset.New.Add ⟨"b", 3⟩).Add ⟨"c", 4⟩ } }

/-- The cell of `busyCell` without children. -/
def lonelyCell : State :=
  { busyCell with cell := { busyCell.cell with children := hashset.New } }

theorem frame_refl (s : State) : Frame s s :=
  ⟨rfl, rfl, rfl, rfl, rfl, rfl, rfl, rfl, rfl, rfl, [], by simp, by simp⟩

theorem frame_trans {a b c : State} (h1 : Frame a b) (h2 : Frame b c) : Frame a c := by
  obtain ⟨e1, t1, p1⟩ := h1.trace
  obtain ⟨e2, t2, p2⟩ := h2.trace
  refine ⟨h2.self.trans h1.self, h2.parent.trans h1.parent, h2.props.trans h1.props,
    h2.supervisor.trans h1.supervisor, h2.watchers.trans h1.watchers,
    h2.stopping.trans h1.stopping, h2.receivePlugins.trans h1.receivePlugins,
    h2.actor.trans h1.actor, h2.sender.trans h1.sender, h2.produced.trans h1.produced,
    e1 ++ e2, ?_, ?_⟩
  · rw [t2, t1, List.append_assoc]
  · intro e he
    rcases List.mem_append.mp he with h | h
    · exact p1 e h
    · exact p2 e h

theorem frame_emit (s : State) (e : Event) (he : Event.fromContext e = true) :
    Frame s (s.emit e) :=
  ⟨rfl, rfl, rfl, rfl, rfl, rfl, rfl, rfl, rfl, rfl, [e], rfl, by simpa using he⟩

theorem frame_Stash (s : State) : Frame s (actorCell.Stash s) :=
  ⟨rfl, rfl, rfl, rfl, rfl, rfl, rfl, rfl, rfl, rfl, [], by simp [actorCell.Stash], by simp⟩

theorem frame_Become (b : Receive) (s : State) : Frame s (actorCell.Become b s) :=
  ⟨rfl, rfl, rfl, rfl, rfl, rfl, rfl, rfl, rfl, rfl, [], by simp [actorCell.Become], by simp⟩

theorem frame_BecomeStacked (b : Receive) (s : State) : Frame s (actorCell.BecomeStacked b s) :=
  ⟨rfl, rfl, rfl, rfl, rfl, rfl, rfl, rfl, rfl, rfl, [], by simp [actorCell.BecomeStacked], by simp⟩

theorem frame_UnbecomeStacked (s : State) : Frame s (actorCell.UnbecomeStacked s).1 := by
  unfold actorCell.UnbecomeStacked
  split
  · exact frame_refl s
  · exact ⟨rfl, rfl, rfl, rfl, rfl, rfl, rfl, rfl, rfl, rfl, [], by simp, by simp⟩

theorem frame_Watch (who : PID) (s : State) : Frame s (actorCell.Watch who s) :=
  ⟨rfl, rfl, rfl, rfl, rfl, rfl, rfl, rfl, rfl, rfl, [.sendSystemMessage who (.watch s.cell.self)],
    rfl, by simp [Event.fromContext]⟩

theorem frame_Unwatch (who : PID) (s : State) : Frame s (actorCell.Unwatch who s) :=
  ⟨rfl, rfl, rfl, rfl, rfl, rfl, rfl, rfl, rfl, rfl, [.sendSystemMessage who (.unwatch s.cell.self)],
    rfl, by simp [Event.fromContext]⟩

theorem frame_SpawnNamed (props : Props) (name : String) (s : State) :
    Frame s (actorCell.SpawnNamed props name s).2 := by
  refine ⟨rfl, rfl, rfl, rfl, rfl, rfl, rfl, rfl, rfl, rfl, ?_⟩
  refine ⟨[.spawn (actorCell.SpawnNamed props name s).1 props s.cell.self,
    .sendSystemMessage (actorCell.SpawnNamed props name s).1 (.watch s.cell.self)], ?_, ?_⟩
  · simp [actorCell.SpawnNamed, actorCell.Watch, spawn, PID.sendSystemMessage, State.emit]
  · simp [Event.fromContext]

theorem frame_Spawn (props : Props) (s : State) : Frame s (actorCell.Spawn props s).2 := by
  have h := frame_SpawnNamed props (getAutoId s).1 (getAutoId s).2
  exact ⟨h.self, h.parent, h.props, h.supervisor, h.watchers, h.stopping, h.receivePlugins,
    h.actor, h.sender, h.produced, h.trace⟩

theorem andThen_eq_some {r : Result} {f : State → Result} {x : State × Option Reason}
    (h : r.andThen f = some x) :
    (∃ s e, r = some (s, some e) ∧ x = (s, some e)) ∨ ∃ s, r = some (s, none) ∧ f s = some x := by
  unfold Result.andThen at h
  split at h
  · cases h
  · rename_i s e
    left
    exact ⟨s, e, rfl, (Option.some.inj h).symm⟩
  · rename_i s
    right
    exact ⟨s, rfl, h⟩

theorem frame_Receive {next : State → Result}
    (hn : ∀ s r, next s = some r → Frame s r.1) (m : Message) (s : State)
    (r : State × Option Reason) (h : actorCell.Receive next m s = some r) :
    Frame s r.1 := by
  unfold actorCell.Receive at h
  have f0 : Frame s { s with cell := { s.cell with receiveIndex := 0, message := m } } :=
    ⟨rfl, rfl, rfl, rfl, rfl, rfl, rfl, rfl, rfl, rfl, [], by simp, by simp⟩
  rcases andThen_eq_some h with ⟨s1, e, h1, rfl⟩ | ⟨s1, h1, h2⟩
  · exact frame_trans f0 (hn _ _ h1)
  · cases h2
    refine frame_trans (frame_trans f0 (hn _ _ h1)) ?_
    exact ⟨rfl, rfl, rfl, rfl, rfl, rfl, rfl, rfl, rfl, rfl, [], by simp, by simp⟩

theorem run_frame {next : State → Result}
    (hn : ∀ s r, next s = some r → Frame s r.1) (p : Prog) :
    ∀ (s : State) (r : State × Option Reason), p.run next s = some r → Frame s r.1 := by
  induction p with
  | ret => intro s r h; cases h; exact frame_refl s
  | panic e => intro s r h; cases h; exact frame_refl s
  | inspect k ih => intro s r h; exact ih s s r h
  | Watch who k ih => intro s r h; exact frame_trans (frame_Watch who s) (ih _ r h)
  | Unwatch who k ih => intro s r h; exact frame_trans (frame_Unwatch who s) (ih _ r h)
  | Become b k ih => intro s r h; exact frame_trans (frame_Become b s) (ih _ r h)
  | BecomeStacked b k ih => intro s r h; exact frame_trans (frame_BecomeStacked b s) (ih _ r h)
  | UnbecomeStacked k ih =>
    intro s r h
    have hf := frame_UnbecomeStacked s
    simp only [Prog.run] at h
    split at h
    · rename_i s1 e heq
      cases h
      rw [heq] at hf
      exact hf
    · rename_i s1 heq
      rw [heq] at hf
      exact frame_trans hf (ih _ r h)
  | Spawn props k ih =>
    intro s r h
    exact frame_trans (frame_Spawn props s) (ih _ _ r h)
  | SpawnNamed props name k ih =>
    intro s r h
    exact frame_trans (frame_SpawnNamed props name s) (ih _ _ r h)
  | Next k ih =>
    intro s r h
    simp only [Prog.run] at h
    rcases andThen_eq_some h with ⟨s1, e, h1, rfl⟩ | ⟨s1, h1, h2⟩
    · exact hn _ _ h1
    · exact frame_trans (hn _ _ h1) (ih _ r h2)
  | Receive m k ih =>
    intro s r h
    simp only [Prog.run] at h
    rcases andThen_eq_some h with ⟨s1, e, h1, rfl⟩ | ⟨s1, h1, h2⟩
    · exact frame_Receive hn m s _ h1
    · exact frame_trans (frame_Receive hn m s _ h1) (ih _ r h2)
  | Stash k ih => intro s r h; exact frame_trans (frame_Stash s) (ih _ r h)

theorem Next_frame (env : Env) :
    ∀ (fuel : Nat) (s : State) (r : State × Option Reason),
      actorCell.Next env fuel s = some r → Frame s r.1 := by
  intro fuel
  induction fuel with
  | zero => intro s r h; simp [actorCell.Next] at h
  | succ n ih =>
    intro s r h
    simp only [actorCell.Next] at h
    split at h
    · rename_i receive _
      refine frame_trans ?_ (run_frame ih _ _ r h)
      exact ⟨rfl, rfl, rfl, rfl, rfl, rfl, rfl, rfl, rfl, rfl, [_], rfl, by simp [Event.fromContext]⟩
    · split at h
      · cases h; exact frame_refl s
      · exact frame_trans (frame_emit s (.invoke _ _ _) rfl) (run_frame ih _ _ r h)

theorem fromDispatch_of_fromContext {e : Event} (h : e.fromContext = true) :
    e.fromDispatch = true := by
  cases e with
  | sendSystemMessage t m => cases m <;> simp_all [Event.fromDispatch, Event.fromContext]
  | _ => simp_all [Event.fromDispatch, Event.fromContext]

theorem invokeUserMessage_dispatched (env : Env) (fuel : Nat) (md : UserMessage) (s : State)
    (r : State × Option Reason) (h : actorCell.invokeUserMessage env fuel md s = some r) :
    r.2 = none ∧ Dispatched md s r.1 := by
  unfold actorCell.invokeUserMessage at h
  simp only at h
  split at h
  · cases h
  · rename_i s1 hn
    cases h
    have f := Next_frame env fuel _ _ hn
    obtain ⟨evs, ht, hp⟩ := f.trace
    refine ⟨rfl, f.self, f.parent, f.props, f.supervisor, f.watchers, f.stopping,
      f.receivePlugins, f.actor, f.produced, evs, ?_, fun e he => fromDispatch_of_fromContext (hp e he)⟩
    simpa [State.emit] using ht
  · rename_i s1 e hn
    have f := Next_frame env fuel _ _ hn
    obtain ⟨evs, ht, hp⟩ := f.trace
    simp only [State.emit, List.append_assoc, List.singleton_append] at ht
    split at h
    · simp only [handleRootFailure, Env.Handle] at h
      cases h
      refine ⟨rfl, f.self, f.parent, f.props, f.supervisor, f.watchers, f.stopping,
        f.receivePlugins, f.actor, f.produced, evs ++ [.sendSystemMessage s1.cell.self .restart], ?_, ?_⟩
      · simp [PID.sendSystemMessage, State.emit, ht]
      · intro x hx
        rcases List.mem_append.mp hx with h1 | h1
        · exact fromDispatch_of_fromContext (hp x h1)
        · simp at h1; subst h1; rfl
    · rename_i parent hpar
      cases h
      refine ⟨rfl, f.self, f.parent, f.props, f.supervisor, f.watchers, f.stopping,
        f.receivePlugins, f.actor, f.produced,
        evs ++ [.suspend s1.cell.self, .sendSystemMessage parent (.failure s1.cell.self e)], ?_, ?_⟩
      · simp [PID.sendSystemMessage, PID.suspend, State.emit, ht]
      · intro x hx
        rcases List.mem_append.mp hx with h1 | h1
        · exact fromDispatch_of_fromContext (hp x h1)
        · simp at h1
          rcases h1 with h1 | h1 <;> subst h1 <;> rfl

theorem foldl_emit (f : PID → Event) (l : List PID) :
    ∀ s : State, l.foldl (fun acc p => acc.emit (f p)) s =
      { s with world := { s.world with trace := s.world.trace ++ l.map f } } := by
  induction l with
  | nil => intro s; simp
  | cons a l ih =>
    intro s
    rw [List.foldl_cons, ih]
    simp [State.emit]

/-- C1 (the code at the failing inputs): the root-level cell `a` spawning `b`
gets a child with identity `b`, not `a/b`; the nested cell `a/b`, whose parent
is `a`, spawning `c` gets a child with identity `a/c`, not `a/b/c`: the name is
composed from the parent of the spawning cell, not from the spawning cell. -/
theorem SpawnNamed_composes_from_parent_of_spawner :
    (actorCell.SpawnNamed ⟨0, .defaultSupervisionStrategy, []⟩ "b"
        ⟨sampleCell ⟨"a", 1⟩ none, sampleWorld⟩).1.Id = "b" ∧
    "b" ≠ "a" ++ "/" ++ "b" ∧
    (actorCell.SpawnNamed ⟨0, .defaultSupervisionStrategy, []⟩ "c"
        ⟨sampleCell ⟨"a/b", 2⟩ (some ⟨"a", 1⟩), sampleWorld⟩).1.Id = "a/c" ∧
    "a/c" ≠ "a/b" ++ "/" ++ "c" := by decide

/-- C2 (the code at the failing input): a cell that watches `w` and has another
child processes `OtherStopped{Who: w}`: whatever the user code, it forgets `w`
and neither enters a user dispatch nor calls a receive function, so no
`Terminated{Who: w}` reaches the handler. -/
theorem otherStopped_delivers_no_Terminated (env : Env) (fuel : Nat) :
    ∃ s', actorCell.invokeSystemMessage env fuel (.otherStopped ⟨"w", 8⟩)
        ⟨watchingCell, sampleWorld⟩ = some (s', none) ∧
      s'.cell.watching = hashset.New.Add ⟨"c", 4⟩ ∧
      dispatched s'.world.trace = [] ∧ invoked s'.world.trace = [] := by
  refine ⟨_, rfl, ?_, ?_, ?_⟩ <;> decide

/-- C4 (the code at the failing input): a receive function stashes the batch it
is handling and panics; the dispatch recovers and the batch is on the stash.
Processing `Restart` then delivers `Restarting` and `Started`, pops the batch,
and panics on the type assertion `msg.(UserMessage)`: the batch is not
dispatched again, and it is gone from the stash. -/
theorem restart_faults_on_stashed_message :
    ∃ s1 s2,
      actorCell.invokeUserMessage writerEnv 2 ⟨.value "batch", none⟩
        ⟨sampleCell ⟨"writer", 9⟩ (some ⟨"manager", 5⟩), sampleWorld⟩ = some (s1, none) ∧
      s1.cell.stash = some [.value "batch"] ∧
      actorCell.invokeSystemMessage writerEnv 2 .restart s1 =
        some (s2, some "interface conversion: interface {} is not actor.UserMessage") ∧
      invoked s2.world.trace = [.value "batch", .Restarting, .Started] ∧
      s2.cell.stash = some [] := by
  refine ⟨_, _, rfl, ?_, rfl, ?_, ?_⟩ <;> decide

theorem hashset_ext {a b : hashset} (h : a.items = b.items) : a = b := by
  cases a; cases b; cases h; rfl

theorem count_fromDispatch (e : Event) (he : e.fromDispatch = false) (evs : List Event)
    (h : ∀ x ∈ evs, Event.fromDispatch x = true) : evs.count e = 0 := by
  rw [List.count_eq_zero]
  intro hmem
  rw [h e hmem] at he
  cases he

theorem count_notifications (target who self : PID) (l : List PID) (hl : l.Nodup) :
    (l.map (fun w => Event.sendSystemMessage w (.otherStopped self))).count
        (.sendSystemMessage target (.otherStopped who)) =
      if who = self ∧ target ∈ l then 1 else 0 := by
  induction l with
  | nil => simp
  | cons a l ih =>
    have hnd := List.nodup_cons.mp hl
    rw [List.map_cons, List.count_cons, ih hnd.2]
    by_cases hw : who = self
    · subst hw
      by_cases ha : a = target
      · subst ha
        simp [hnd.1]
      · have : ¬ target = a := fun h => ha h.symm
        simp [ha, this]
    · have : ¬ self = who := fun h => hw h.symm
      simp [hw, this]

/-- C9: a cell with a parent that processes `Failure{Who, Reason}` returns
without panic, its cell state is untouched, and the trace grows by exactly one
system message, chosen by the directive of its supervisor strategy: `Resume`,
`Restart` or `Stop` to `Who`, or, on escalation, the same failure to the
parent. -/
theorem handleFailure_carries_out_directive (env : Env) (fuel : Nat) (Who : PID)
    (reason : Reason) (s : State) (parent : PID) (hp : s.cell.parent = some parent) :
    ∃ s', actorCell.invokeSystemMessage env fuel (.failure Who reason) s = some (s', none) ∧
      s'.cell = s.cell ∧
      s'.world.trace = s.world.trace ++
        [match env.Handle s.cell.supervisor Who reason with
          | .ResumeDirective => Event.sendSystemMessage Who .resume
          | .RestartDirective => Event.sendSystemMessage Who .restart
          | .StopDirective => Event.sendSystemMessage Who .stop
          | .EscalateDirective => Event.sendSystemMessage parent (.failure Who reason)] := by
  simp only [actorCell.invokeSystemMessage, actorCell.handleFailure, hp]
  cases env.Handle s.cell.supervisor Who reason <;> exact ⟨_, rfl, rfl, rfl⟩

/-- Witness for C9: a cell with parent `p` and a user strategy, child `c`
failed. -/
theorem handleFailure_carries_out_directive_witness :
    ∃ s', actorCell.invokeSystemMessage quietEnv 0 (.failure ⟨"c", 4⟩ "boom")
        ⟨{ sampleCell ⟨"a", 1⟩ (some ⟨"p", 6⟩) with supervisor := .strategy 0 }, sampleWorld⟩
        = some (s', none) ∧
      s'.cell = { sampleCell ⟨"a", 1⟩ (some ⟨"p", 6⟩) with supervisor := .strategy 0 } ∧
      s'.world.trace = sampleWorld.trace ++
        [match quietEnv.Handle (.strategy 0) ⟨"c", 4⟩ "boom" with
          | .ResumeDirective => Event.sendSystemMessage ⟨"c", 4⟩ .resume
          | .RestartDirective => Event.sendSystemMessage ⟨"c", 4⟩ .restart
          | .StopDirective => Event.sendSystemMessage ⟨"c", 4⟩ .stop
          | .EscalateDirective => Event.sendSystemMessage ⟨"p", 6⟩ (.failure ⟨"c", 4⟩ "boom")] :=
  handleFailure_carries_out_directive quietEnv 0 ⟨"c", 4⟩ "boom"
    ⟨{ sampleCell ⟨"a", 1⟩ (some ⟨"p", 6⟩) with supervisor := .strategy 0 }, sampleWorld⟩ ⟨"p", 6⟩ rfl

/-- C10: a user dispatch in a cell with a parent, whose handler chain ends in
state `s1` with outcome `o`: the dispatch returns without panic, the chain
itself added only context events (no suspend, no failure), and after the chain
the trace grows by nothing when the chain returned normally, and by the
suspension of the own handle followed by one `Failure{Who: self, Reason: r}` to
the parent when the chain panicked with `r`. -/
theorem invokeUserMessage_fault_boundary (env : Env) (fuel : Nat) (md : UserMessage)
    (s s1 : State) (o : Option Reason) (parent : PID) (hp : s.cell.parent = some parent)
    (hn : actorCell.Next env fuel (({ s with cell := { s.cell with
      receiveIndex := 0, message := md.message, sender := md.sender } }).emit (.dispatch md))
      = some (s1, o)) :
    ∃ s' evs, actorCell.invokeUserMessage env fuel md s = some (s', none) ∧
      s'.cell = s1.cell ∧
      (∀ e ∈ evs, Event.fromContext e = true) ∧
      s1.world.trace = s.world.trace ++ .dispatch md :: evs ∧
      s'.world.trace = s1.world.trace ++
        match o with
        | none => []
        | some r => [.suspend s.cell.self, .sendSystemMessage parent (.failure s.cell.self r)] := by
  have f := Next_frame env fuel _ _ hn
  obtain ⟨evs, ht, hpe⟩ := f.trace
  have hpar : s1.cell.parent = some parent := by rw [f.parent]; exact hp
  have hself : s1.cell.self = s.cell.self := f.self
  unfold actorCell.invokeUserMessage
  simp only [hn]
  cases o with
  | none =>
    refine ⟨s1, evs, rfl, rfl, hpe, ?_, by simp⟩
    simpa [State.emit] using ht
  | some r =>
    dsimp only
    rw [hpar]
    refine ⟨_, evs, rfl, rfl, hpe, ?_, ?_⟩
    · simpa [State.emit] using ht
    · simp [PID.sendSystemMessage, PID.suspend, State.emit, hself]

/-- Witness for C10: a receive function that stashes and panics with
`"restart"`, in a cell with parent `manager`. -/
theorem invokeUserMessage_fault_boundary_witness :
    ∃ s1, actorCell.Next writerEnv 2 (({ (⟨sampleCell ⟨"writer", 9⟩ (some ⟨"manager", 5⟩), sampleWorld⟩ : State) with
        cell := { sampleCell ⟨"writer", 9⟩ (some ⟨"manager", 5⟩) with
          receiveIndex := 0, message := .value "batch", sender := none } }).emit
          (.dispatch ⟨.value "batch", none⟩)) = some (s1, some "restart") ∧
      ∃ s' evs, actorCell.invokeUserMessage writerEnv 2 ⟨.value "batch", none⟩
          ⟨sampleCell ⟨"writer", 9⟩ (some ⟨"manager", 5⟩), sampleWorld⟩ = some (s', none) ∧
        s'.cell = s1.cell ∧
        (∀ e ∈ evs, Event.fromContext e = true) ∧
        s1.world.trace = sampleWorld.trace ++ .dispatch ⟨.value "batch", none⟩ :: evs ∧
        s'.world.trace = s1.world.trace ++
          [.suspend ⟨"writer", 9⟩, .sendSystemMessage ⟨"manager", 5⟩ (.failure ⟨"writer", 9⟩ "restart")] :=
  ⟨_, rfl, invokeUserMessage_fault_boundary writerEnv 2 ⟨.value "batch", none⟩
    ⟨sampleCell ⟨"writer", 9⟩ (some ⟨"manager", 5⟩), sampleWorld⟩ _ (some "restart") ⟨"manager", 5⟩ rfl rfl⟩

theorem behaviorCall_nonempty (c : BehaviorCall) (s : State) (h : s.cell.behavior ≠ []) :
    (c.apply s).cell.behavior ≠ [] := by
  cases c with
  | Become b => simp [BehaviorCall.apply, actorCell.Become]
  | BecomeStacked b => simp [BehaviorCall.apply, actorCell.BecomeStacked]
  | UnbecomeStacked =>
    simp only [BehaviorCall.apply, actorCell.UnbecomeStacked]
    split
    · exact h
    · rename_i hlen
      cases hb : s.cell.behavior with
      | nil => exact absurd hb h
      | cons a t =>
        cases t with
        | nil => rw [hb] at hlen; simp at hlen
        | cons b t => simp [hb]

theorem behaviorCalls_nonempty (calls : List BehaviorCall) :
    ∀ s : State, s.cell.behavior ≠ [] →
      (calls.foldl (fun acc c => c.apply acc) s).cell.behavior ≠ [] := by
  induction calls with
  | nil => intro s h; exact h
  | cons c calls ih =>
    intro s h
    exact ih _ (behaviorCall_nonempty c s h)

/-- C14: on a non-empty behavior stack, `BecomeStacked(h)` followed by
`UnbecomeStacked()` returns without panic and gives back the state it started
from, so the stack has the same entries in the same order; in between, `h` is
on top. -/
theorem becomeStacked_then_unbecomeStacked (h : Receive) (s : State)
    (hne : s.cell.behavior ≠ []) :
    actorCell.UnbecomeStacked (actorCell.BecomeStacked h s) = (s, none) ∧
    (actorCell.UnbecomeStacked (actorCell.BecomeStacked h s)).1.cell.behavior = s.cell.behavior ∧
    (actorCell.BecomeStacked h s).cell.behavior.head? = some h := by
  have hlen : ¬ (h :: s.cell.behavior).length ≤ 1 := by
    cases hb : s.cell.behavior with
    | nil => exact absurd hb hne
    | cons a t => simp
  have : actorCell.UnbecomeStacked (actorCell.BecomeStacked h s) = (s, none) := by
    simp only [actorCell.UnbecomeStacked, actorCell.BecomeStacked, if_neg hlen, List.tail_cons]
  refine ⟨this, ?_, rfl⟩
  rw [this]

/-- Witness for C14: a stack of two behaviors. -/
theorem becomeStacked_then_unbecomeStacked_witness :
    actorCell.UnbecomeStacked (actorCell.BecomeStacked 5
        ⟨{ sampleCell ⟨"a", 1⟩ none with behavior := [3, 2] }, sampleWorld⟩) =
      (⟨{ sampleCell ⟨"a", 1⟩ none with behavior := [3, 2] }, sampleWorld⟩, none) ∧
    (actorCell.UnbecomeStacked (actorCell.BecomeStacked 5
        ⟨{ sampleCell ⟨"a", 1⟩ none with behavior := [3, 2] }, sampleWorld⟩)).1.cell.behavior = [3, 2] ∧
    (actorCell.BecomeStacked 5
        ⟨{ sampleCell ⟨"a", 1⟩ none with behavior := [3, 2] }, sampleWorld⟩).cell.behavior.head?
      = some 5 :=
  becomeStacked_then_unbecomeStacked 5
    ⟨{ sampleCell ⟨"a", 1⟩ none with behavior := [3, 2] }, sampleWorld⟩ (by decide)

/-- C15: `UnbecomeStacked` panics with the base-behavior message exactly when
the stack has at most one entry, and then leaves the state as it is; otherwise
it returns and removes exactly the top entry.  A newly constructed cell has one
behavior, the `Receive` of its actor, and any sequence of `Become`,
`BecomeStacked` and `UnbecomeStacked` calls on it (panicking or not) leaves the
stack non-empty. -/
theorem unbecomeStacked_fails_only_at_base :
    (∀ s : State,
      ((actorCell.UnbecomeStacked s).2 = some "Can not unbecome actor base behavior" ↔
        s.cell.behavior.length ≤ 1) ∧
      ((actorCell.UnbecomeStacked s).2 = none ↔ 1 < s.cell.behavior.length) ∧
      (s.cell.behavior.length ≤ 1 → (actorCell.UnbecomeStacked s).1 = s) ∧
      (1 < s.cell.behavior.length →
        (actorCell.UnbecomeStacked s).1 =
          { s with cell := { s.cell with behavior := s.cell.behavior.tail } } ∧
        ∃ top, s.cell.behavior = top :: (actorCell.UnbecomeStacked s).1.cell.behavior)) ∧
    ∀ (env : Env) (props : Props) (parent : Option PID) (self : PID) (world : World)
      (calls : List BehaviorCall),
      (NewActorCell env props parent self world).cell.behavior =
        [(env.ProduceActor props world.produced).Receive] ∧
      (calls.foldl (fun acc c => c.apply acc)
        (NewActorCell env props parent self world)).cell.behavior ≠ [] := by
  constructor
  · intro s
    by_cases hlen : s.cell.behavior.length ≤ 1
    · have hlt : ¬ 1 < s.cell.behavior.length := by omega
      simp [actorCell.UnbecomeStacked, hlen, hlt]
    · have hlt : 1 < s.cell.behavior.length := by omega
      have hU : actorCell.UnbecomeStacked s =
          ({ s with cell := { s.cell with behavior := s.cell.behavior.tail } }, none) := by
        simp only [actorCell.UnbecomeStacked, if_neg hlen]
      rw [hU]
      refine ⟨?_, ?_, fun h => absurd h hlen, fun _ => ⟨rfl, ?_⟩⟩
      · simp [hlen]
      · simp [hlt]
      · cases hb : s.cell.behavior with
        | nil => rw [hb] at hlt; simp at hlt
        | cons a t => exact ⟨a, rfl⟩
  · intro env props parent self world calls
    refine ⟨rfl, behaviorCalls_nonempty calls _ ?_⟩
    simp [NewActorCell, actorCell.incarnateActor, actorCell.Become]

theorem remove_of_not_mem (h : hashset) (w : PID) (hw : w ∉ h.items) : h.Remove w = h := by
  apply hashset_ext
  exact List.erase_of_not_mem hw

theorem drainStash_stopping (env : Env) (fuel : Nat) :
    ∀ (n : Nat) (s : State) (r : State × Option Reason),
      actorCell.drainStash env fuel n s = some r → r.1.cell.stopping = s.cell.stopping := by
  intro n
  induction n with
  | zero =>
    intro s r h
    unfold actorCell.drainStash at h
    split at h
    · cases h; rfl
    · cases h; rfl
    · simp at h
  | succ n ih =>
    intro s r h
    unfold actorCell.drainStash at h
    split at h
    · cases h; rfl
    · cases h; rfl
    · rename_i msg rest hst
      simp only at h
      split at h
      · rcases andThen_eq_some h with ⟨s1, e, h1, rfl⟩ | ⟨s1, h1, h2⟩
        · exact (invokeUserMessage_dispatched env fuel _ _ _ h1).2.stopping
        · rw [ih _ _ h2]
          exact (invokeUserMessage_dispatched env fuel _ _ _ h1).2.stopping
      · cases h; rfl

theorem restart_stopping (env : Env) (fuel : Nat) (s : State) (r : State × Option Reason)
    (h : actorCell.restart env fuel s = some r) : r.1.cell.stopping = s.cell.stopping := by
  unfold actorCell.restart at h
  rcases andThen_eq_some h with ⟨s1, e, h1, rfl⟩ | ⟨s1, h1, h2⟩
  · exact (invokeUserMessage_dispatched env fuel _ _ _ h1).2.stopping
  · rw [drainStash_stopping env fuel _ _ _ h2]
    exact (invokeUserMessage_dispatched env fuel _ _ _ h1).2.stopping

theorem stopped_stopping (env : Env) (fuel : Nat) (s : State) (r : State × Option Reason)
    (h : actorCell.stopped env fuel s = some r) : r.1.cell.stopping = s.cell.stopping := by
  unfold actorCell.stopped at h
  rcases andThen_eq_some h with ⟨s1, e, h1, rfl⟩ | ⟨s1, h1, h2⟩
  · exact (invokeUserMessage_dispatched env fuel _ _ _ h1).2.stopping
  · cases h2
    simp only [PID.sendSystemMessage]
    rw [foldl_emit]
    exact (invokeUserMessage_dispatched env fuel _ _ _ h1).2.stopping

theorem tryRestartOrTerminate_stopping (env : Env) (fuel : Nat) (s : State)
    (r : State × Option Reason) (h : actorCell.tryRestartOrTerminate env fuel s = some r) :
    r.1.cell.stopping = s.cell.stopping := by
  unfold actorCell.tryRestartOrTerminate at h
  split at h
  · cases h; rfl
  · split at h
    · exact restart_stopping env fuel s r h
    · exact stopped_stopping env fuel s r h

theorem stop_children_stopping (l : List PID) (s1 : State) :
    (l.foldl (fun acc child => PID.Stop child acc) s1).cell = s1.cell := by
  have := foldl_emit (fun c => Event.sendSystemMessage c .stop) l s1
  simp only [PID.Stop, PID.sendSystemMessage]
  rw [this]

/-- C17: whenever processing a system message returns or panics, a message
other than `Restart` leaves a set `stopping` flag set, `Restart` leaves it
cleared, `Stop` leaves it set; and no code run through the context (any
receive function, with all nested `Next` and `Receive` calls) changes the
flag. -/
theorem stopping_cleared_only_by_restart (env : Env) (fuel : Nat) (s : State)
    (r : State × Option Reason) (message : SystemMessage)
    (hret : actorCell.invokeSystemMessage env fuel message s = some r) :
    (message ≠ .restart → s.cell.stopping = true → r.1.cell.stopping = true) ∧
    (message = .restart → r.1.cell.stopping = false) ∧
    (message = .stop → r.1.cell.stopping = true) ∧
    ∀ (p : Prog) (s0 : State) (r0 : State × Option Reason),
      p.run (actorCell.Next env fuel) s0 = some r0 → r0.1.cell.stopping = s0.cell.stopping := by
  have hstop : ∀ b : Bool, ∀ r : State × Option Reason,
      ((actorCell.invokeUserMessage env fuel ⟨if b then .Stopping else .Restarting, none⟩
        { s with cell := { s.cell with stopping := b } }).andThen fun s1 =>
          actorCell.tryRestartOrTerminate env fuel
            ((s1.cell.children.Values (env.range s1.world.trace.length)).foldl
              (fun acc child => child.Stop acc) s1)) = some r →
      r.1.cell.stopping = b := by
    intro b r h
    rcases andThen_eq_some h with ⟨s1, e, h1, rfl⟩ | ⟨s1, h1, h2⟩
    · exact (invokeUserMessage_dispatched env fuel _ _ _ h1).2.stopping
    · rw [tryRestartOrTerminate_stopping env fuel _ _ h2, stop_children_stopping]
      exact (invokeUserMessage_dispatched env fuel _ _ _ h1).2.stopping
  refine ⟨?_, ?_, ?_, ?_⟩
  · intro hne hs
    cases message with
    | stop => exact hstop true r hret
    | otherStopped Who =>
      have := tryRestartOrTerminate_stopping env fuel _ _ hret
      rw [this]
      exact hs
    | watch w => cases hret; exact hs
    | unwatch w => cases hret; exact hs
    | failure Who reason =>
      simp only [actorCell.invokeSystemMessage, actorCell.handleFailure] at hret
      split at hret
      · cases hret; exact hs
      · cases hret; exact hs
      · cases hret; exact hs
      · split at hret
        · cases hret; exact hs
        · cases hret; exact hs
    | restart => exact absurd rfl hne
    | resume => cases hret; exact hs
    | unknown t => cases hret; exact hs
  · intro hm
    subst hm
    exact hstop false r hret
  · intro hm
    subst hm
    exact hstop true r hret
  · intro p s0 r0 h
    exact (run_frame (Next_frame env fuel) p s0 r0 h).stopping

/-- Witness for C17: a stopping cell whose last child reports `OtherStopped`
and which therefore finalizes its stop. -/
theorem stopping_cleared_only_by_restart_witness :
    ∃ r, actorCell.invokeSystemMessage quietEnv 1 (.otherStopped ⟨"c", 4⟩)
        ⟨{ watchingCell with stopping := true }, sampleWorld⟩ = some r ∧
      ((SystemMessage.otherStopped ⟨"c", 4⟩ ≠ .restart →
          ({ watchingCell with stopping := true } : actorCell).stopping = true →
          r.1.cell.stopping = true) ∧
        (SystemMessage.otherStopped ⟨"c", 4⟩ = .restart → r.1.cell.stopping = false) ∧
        (SystemMessage.otherStopped ⟨"c", 4⟩ = .stop → r.1.cell.stopping = true) ∧
        ∀ (p : Prog) (s0 : State) (r0 : State × Option Reason),
          p.run (actorCell.Next quietEnv 1) s0 = some r0 →
            r0.1.cell.stopping = s0.cell.stopping) :=
  ⟨_, rfl, stopping_cleared_only_by_restart quietEnv 1
    ⟨{ watchingCell with stopping := true }, sampleWorld⟩ _ (.otherStopped ⟨"c", 4⟩) rfl⟩

/-- C18 (counterexample): a running cell without children, watching nobody,
gets `OtherStopped{Who: w}`: it restarts, that is, a new actor is produced and
`Started` is dispatched to the receive function. -/
theorem otherStopped_from_unknown_restarts_childless_cell :
    (⟨"w", 8⟩ : PID) ∉ (sampleCell ⟨"a", 1⟩ none).children.items ∧
    (⟨"w", 8⟩ : PID) ∉ (sampleCell ⟨"a", 1⟩ none).watching.items ∧
    ∃ s', actorCell.invokeSystemMessage quietEnv 1 (.otherStopped ⟨"w", 8⟩)
        ⟨sampleCell ⟨"a", 1⟩ none, sampleWorld⟩ = some (s', none) ∧
      s' ≠ ⟨sampleCell ⟨"a", 1⟩ none, sampleWorld⟩ ∧
      s'.world.produced = 1 ∧
      s'.world.trace = [.dispatch ⟨.Started, none⟩, .invoke 0 .Started none] := by
  refine ⟨by decide, by decide, _, rfl, ?_, ?_, ?_⟩ <;> decide

/-- C18 (amended): a cell that has at least one child and gets
`OtherStopped{Who: w}` for a `w` that is neither a child nor watched returns
the state it had: no field changes, no receive function is called, nothing is
sent. -/
theorem otherStopped_from_unknown_ignored_while_children (env : Env) (fuel : Nat) (s : State)
    (w : PID) (hc : w ∉ s.cell.children.items) (hw : w ∉ s.cell.watching.items)
    (hne : s.cell.children.Empty = false) :
    actorCell.invokeSystemMessage env fuel (.otherStopped w) s = some (s, none) := by
  simp only [actorCell.invokeSystemMessage, actorCell.handleOtherStopped,
    remove_of_not_mem _ w hc, remove_of_not_mem _ w hw, actorCell.tryRestartOrTerminate, hne]
  rfl

/-- Witness for C18 (amended): a cell with child `c`, unknown handle `x`. -/
theorem otherStopped_from_unknown_ignored_while_children_witness :
    actorCell.invokeSystemMessage quietEnv 0 (.otherStopped ⟨"x", 10⟩) ⟨watchingCell, sampleWorld⟩
      = some (⟨watchingCell, sampleWorld⟩, none) :=
  otherStopped_from_unknown_ignored_while_children quietEnv 0 ⟨watchingCell, sampleWorld⟩ ⟨"x", 10⟩
    (by decide) (by decide) (by decide)

/-- C19 (the code at the failing inputs): for a handle that is not in the map
(the empty map of a new placement actor, or a map with other entries)
`pidToMeta` answers not found with nil key and nil meta, and `onTerminated`
panics on `meta.ID` and leaves the map as it is without broadcasting; for a
handle that is in the map it broadcasts, removes exactly that entry and keeps
the others.  A handle with the identity of an entry at another address is not
in the map either. -/
theorem onTerminated_panics_on_unknown_pid :
    placementActor.pidToMeta ⟨[], []⟩ ⟨"x", 10⟩ = (false, none, none) ∧
    placementActor.onTerminated ⟨[], []⟩ ⟨"x", 10⟩ =
      (⟨[], []⟩, some "invalid memory address or nil pointer dereference") ∧
    placementActor.onTerminated ⟨[("g1", ⟨"id1", ⟨"y", 11⟩⟩)], []⟩ ⟨"x", 10⟩ =
      (⟨[("g1", ⟨"id1", ⟨"y", 11⟩⟩)], []⟩, some "invalid memory address or nil pointer dereference") ∧
    placementActor.onTerminated ⟨[("g1", ⟨"id1", ⟨"y", 11⟩⟩), ("g2", ⟨"id2", ⟨"x", 10⟩⟩)], []⟩ ⟨"x", 10⟩ =
      (⟨[("g1", ⟨"id1", ⟨"y", 11⟩⟩)], [⟨⟨"x", 10⟩, "id2"⟩]⟩, none) ∧
    placementActor.pidToMeta ⟨[("g1", ⟨"id1", ⟨"y", 11⟩⟩)], []⟩ ⟨"y", 12⟩ = (false, none, none) ∧
    placementActor.onTerminated ⟨[("g1", ⟨"id1", ⟨"y", 11⟩⟩)], []⟩ ⟨"y", 12⟩ =
      (⟨[("g1", ⟨"id1", ⟨"y", 11⟩⟩)], []⟩, some "invalid memory address or nil pointer dereference") := by
  decide

theorem run_closed {R : State → State → Prop} (hR : ContextClosed R) {next : State → Result}
    (hn : ∀ s r, next s = some r → R s r.1) (p : Prog) :
    ∀ (s : State) (r : State × Option Reason), p.run next s = some r → R s r.1 := by
  induction p with
  | ret => intro s r h; cases h; exact hR.refl s
  | panic e => intro s r h; cases h; exact hR.refl s
  | inspect k ih => intro s r h; exact ih s s r h
  | Watch who k ih => intro s r h; exact hR.trans _ _ _ (hR.Watch who s) (ih _ r h)
  | Unwatch who k ih => intro s r h; exact hR.trans _ _ _ (hR.Unwatch who s) (ih _ r h)
  | Become b k ih => intro s r h; exact hR.trans _ _ _ (hR.Become b s) (ih _ r h)
  | BecomeStacked b k ih => intro s r h; exact hR.trans _ _ _ (hR.BecomeStacked b s) (ih _ r h)
  | UnbecomeStacked k ih =>
    intro s r h
    have hf := hR.UnbecomeStacked s
    simp only [Prog.run] at h
    split at h
    · rename_i s1 e heq
      cases h
      rw [heq] at hf
      exact hf
    · rename_i s1 heq
      rw [heq] at hf
      exact hR.trans _ _ _ hf (ih _ r h)
  | Spawn props k ih =>
    intro s r h
    exact hR.trans _ _ _ (hR.Spawn props s) (ih _ _ r h)
  | SpawnNamed props name k ih =>
    intro s r h
    exact hR.trans _ _ _ (hR.SpawnNamed props name s) (ih _ _ r h)
  | Next k ih =>
    intro s r h
    simp only [Prog.run] at h
    rcases andThen_eq_some h with ⟨s1, e, h1, rfl⟩ | ⟨s1, h1, h2⟩
    · exact hn _ _ h1
    · exact hR.trans _ _ _ (hn _ _ h1) (ih _ r h2)
  | Receive m k ih =>
    intro s r h
    simp only [Prog.run] at h
    have hrecv : ∀ x, actorCell.Receive next m s = some x → R s x.1 := by
      intro x hx
      unfold actorCell.Receive at hx
      rcases andThen_eq_some hx with ⟨s1, e, h1, rfl⟩ | ⟨s1, h1, h2⟩
      · exact hR.trans _ _ _ (hR.position 0 m s) (hn _ _ h1)
      · cases h2
        exact hR.trans _ _ _ (hR.trans _ _ _ (hR.position 0 m s) (hn _ _ h1))
          (hR.position _ _ s1)
    rcases andThen_eq_some h with ⟨s1, e, h1, rfl⟩ | ⟨s1, h1, h2⟩
    · exact hrecv _ h1
    · exact hR.trans _ _ _ (hrecv _ h1) (ih _ r h2)
  | Stash k ih => intro s r h; exact hR.trans _ _ _ (hR.Stash s) (ih _ r h)

theorem Next_closed {R : State → State → Prop} (hR : ContextClosed R) (env : Env) :
    ∀ (fuel : Nat) (s : State) (r : State × Option Reason),
      actorCell.Next env fuel s = some r → R s r.1 := by
  intro fuel
  induction fuel with
  | zero => intro s r h; simp [actorCell.Next] at h
  | succ n ih =>
    intro s r h
    simp only [actorCell.Next] at h
    split at h
    · rename_i receive _
      refine hR.trans _ _ _ ?_ (run_closed hR ih _ _ r h)
      exact hR.trans _ _ _ (hR.position (s.cell.receiveIndex + 1) s.cell.message s)
        (hR.invoke receive _)
    · split at h
      · cases h; exact hR.refl s
      · exact hR.trans _ _ _ (hR.invoke _ s) (run_closed hR ih _ _ r h)

theorem senderKept_same (s s' : State) (hs : s'.cell.sender = s.cell.sender)
    (ht : s'.world.trace = s.world.trace) : SenderKept s s' :=
  ⟨hs, [], by simp [ht], by simp⟩

theorem senderKept_closed : ContextClosed SenderKept where
  refl := fun s => senderKept_same s s rfl rfl
  trans := by
    intro a b c ⟨h1, e1, t1, p1⟩ ⟨h2, e2, t2, p2⟩
    refine ⟨h2.trans h1, e1 ++ e2, by rw [t2, t1, List.append_assoc], ?_⟩
    intro r m sd hmem
    rcases List.mem_append.mp hmem with h | h
    · exact p1 r m sd h
    · rw [p2 r m sd h, h1]
  Watch := fun who s => ⟨rfl, [.sendSystemMessage who (.watch s.cell.self)], rfl, by simp⟩
  Unwatch := fun who s => ⟨rfl, [.sendSystemMessage who (.unwatch s.cell.self)], rfl, by simp⟩
  Become := fun b s => senderKept_same _ _ rfl rfl
  BecomeStacked := fun b s => senderKept_same _ _ rfl rfl
  UnbecomeStacked := by
    intro s
    unfold actorCell.UnbecomeStacked
    split
    · exact senderKept_same _ _ rfl rfl
    · exact senderKept_same _ _ rfl rfl
  Spawn := by
    intro props s
    have h := (frame_Spawn props s).trace
    obtain ⟨evs, ht, hp⟩ := h
    refine ⟨(frame_Spawn props s).sender, evs, ht, ?_⟩
    intro r m sd hmem
    exact absurd hmem (by
      have hs : ∀ e ∈ ([.spawn (actorCell.Spawn props s).1 props s.cell.self,
          .sendSystemMessage (actorCell.Spawn props s).1 (.watch s.cell.self)] : List Event),
          e ≠ Event.invoke r m sd := by simp
      have : evs = [.spawn (actorCell.Spawn props s).1 props s.cell.self,
          .sendSystemMessage (actorCell.Spawn props s).1 (.watch s.cell.self)] := by
        have h2 : (actorCell.Spawn props s).2.world.trace = s.world.trace ++
            [.spawn (actorCell.Spawn props s).1 props s.cell.self,
              .sendSystemMessage (actorCell.Spawn props s).1 (.watch s.cell.self)] := by
          simp [actorCell.Spawn, actorCell.SpawnNamed, actorCell.Watch, spawn, getAutoId,
            PID.sendSystemMessage, State.emit]
        rw [h2] at ht
        exact (List.append_cancel_left ht).symm
      rw [this]
      intro hm
      exact hs _ hm rfl)
  SpawnNamed := by
    intro props name s
    refine ⟨rfl, [.spawn (actorCell.SpawnNamed props name s).1 props s.cell.self,
      .sendSystemMessage (actorCell.SpawnNamed props name s).1 (.watch s.cell.self)], ?_, by simp⟩
    simp [actorCell.SpawnNamed, actorCell.Watch, spawn, PID.sendSystemMessage, State.emit]
  Stash := fun s => senderKept_same _ _ rfl rfl
  position := fun i m s => senderKept_same _ _ rfl rfl
  invoke := by
    intro receive s
    refine ⟨rfl, [.invoke receive s.cell.message s.cell.sender], rfl, ?_⟩
    intro r m sd hmem
    simp at hmem
    exact hmem.2.2

theorem Next_first_event (env : Env) (fuel : Nat) (s s1 : State)
    (h : actorCell.Next env fuel s = some (s1, none)) :
    ∃ first rest,
      (s.cell.receivePlugins[s.cell.receiveIndex]? = some first ∨
        (s.cell.receivePlugins[s.cell.receiveIndex]? = none ∧
          s.cell.behavior.head? = some first)) ∧
      s1.world.trace = s.world.trace ++ .invoke first s.cell.message s.cell.sender :: rest := by
  cases fuel with
  | zero => simp [actorCell.Next] at h
  | succ n =>
    simp only [actorCell.Next] at h
    split at h
    · rename_i receive hrec
      obtain ⟨_, evs, ht, _⟩ :=
        run_closed senderKept_closed (Next_closed senderKept_closed env n) _ _ _ h
      refine ⟨receive, evs, Or.inl hrec, ?_⟩
      rw [ht]
      simp [State.emit]
    · rename_i hrec
      split at h
      · cases h
      · rename_i receive hb
        obtain ⟨_, evs, ht, _⟩ :=
          run_closed senderKept_closed (Next_closed senderKept_closed env n) _ _ _ h
        refine ⟨receive, evs, Or.inr ⟨hrec, hb⟩, ?_⟩
        rw [ht]
        simp [State.emit]

/-- C12: `Receive(m)` whose nested dispatch (the chain run from index 0 with
current message `m`) returns normally: it returns normally, index and current
message are again what they were before the call, the sender is the same
before, at the end of the nested dispatch and after; the first receive function
of the chain is called first, with message `m`, and every receive function
called during the nested dispatch sees the same sender. -/
theorem Receive_restores_index_and_message (env : Env) (fuel : Nat) (m : Message)
    (s s1 : State)
    (hn : actorCell.Next env fuel
      { s with cell := { s.cell with receiveIndex := 0, message := m } } = some (s1, none)) :
    ∃ s2 first rest,
      actorCell.Receive (actorCell.Next env fuel) m s = some (s2, none) ∧
      s2.cell.receiveIndex = s.cell.receiveIndex ∧
      s2.cell.message = s.cell.message ∧
      s2.cell.sender = s.cell.sender ∧
      s1.cell.sender = s.cell.sender ∧
      (s.cell.receivePlugins[0]? = some first ∨
        (s.cell.receivePlugins[0]? = none ∧ s.cell.behavior.head? = some first)) ∧
      s2.world.trace = s.world.trace ++ .invoke first m s.cell.sender :: rest ∧
      ∀ r msg sd, Event.invoke r msg sd ∈ rest → sd = s.cell.sender := by
  obtain ⟨first, rest, hfirst, ht⟩ := Next_first_event env fuel _ s1 hn
  obtain ⟨hsd, evs, ht2, hp⟩ := Next_closed senderKept_closed env fuel _ _ hn
  have hevs : evs = .invoke first m s.cell.sender :: rest := by
    rw [ht2] at ht
    exact List.append_cancel_left ht
  refine ⟨{ s1 with cell := { s1.cell with
      receiveIndex := s.cell.receiveIndex, message := s.cell.message } }, first, rest,
    ?_, rfl, rfl, hsd, hsd, hfirst, ht, ?_⟩
  · simp only [actorCell.Receive, hn, Result.andThen]
  · intro r msg sd hmem
    exact hp r msg sd (by rw [hevs]; exact List.mem_cons_of_mem _ hmem)

/-- Witness for C12: a nested `Receive` in the middle of a dispatch. -/
theorem Receive_restores_index_and_message_witness :
    ∃ s1, actorCell.Next quietEnv 1
        { midDispatch with cell := { midDispatch.cell with
            receiveIndex := 0, message := .value "nested" } } = some (s1, none) ∧
      ∃ s2 first rest,
        actorCell.Receive (actorCell.Next quietEnv 1) (.value "nested") midDispatch
          = some (s2, none) ∧
        s2.cell.receiveIndex = midDispatch.cell.receiveIndex ∧
        s2.cell.message = midDispatch.cell.message ∧
        s2.cell.sender = midDispatch.cell.sender ∧
        s1.cell.sender = midDispatch.cell.sender ∧
        (midDispatch.cell.receivePlugins[0]? = some first ∨
          (midDispatch.cell.receivePlugins[0]? = none ∧
            midDispatch.cell.behavior.head? = some first)) ∧
        s2.world.trace = midDispatch.world.trace ++
          .invoke first (.value "nested") midDispatch.cell.sender :: rest ∧
        ∀ r msg sd, Event.invoke r msg sd ∈ rest → sd = midDispatch.cell.sender :=
  ⟨_, rfl, Receive_restores_index_and_message quietEnv 1 (.value "nested") midDispatch _ rfl⟩

theorem mem_Add (h : hashset) (x p : PID) : p ∈ (h.Add x).items ↔ p ∈ h.items ∨ p = x := by
  unfold hashset.Add hashset.items
  split
  · rename_i hx
    constructor
    · intro hp; exact Or.inl hp
    · rintro (hp | hp)
      · exact hp
      · rw [hp]; exact hx
  · simp

theorem mem_Remove (h : hashset) (x p : PID) :
    p ∈ (h.Remove x).items ↔ p ∈ h.items ∧ p ≠ x := by
  unfold hashset.Remove hashset.items
  rw [h.nodup.mem_erase_iff]
  exact And.comm

theorem grown_of (s s' : State) (evs : List Event) (hc : s'.cell.children = s.cell.children)
    (ht : s'.world.trace = s.world.trace ++ evs)
    (hne : ∀ id props parent, Event.spawn id props parent ∉ evs) : Grown s s' := by
  refine ⟨evs, ht, ?_⟩
  intro p
  rw [hc]
  constructor
  · intro h; exact Or.inl h
  · rintro (h | ⟨props, parent, h⟩)
    · exact h
    · exact absurd h (hne _ _ _)

theorem grown_refl (s : State) : Grown s s := grown_of s s [] rfl (by simp) (by simp)

theorem grown_trans (a b c : State) (h1 : Grown a b) (h2 : Grown b c) : Grown a c := by
  obtain ⟨e1, t1, p1⟩ := h1
  obtain ⟨e2, t2, p2⟩ := h2
  refine ⟨e1 ++ e2, by rw [t2, t1, List.append_assoc], ?_⟩
  intro p
  rw [p2 p, p1 p]
  constructor
  · rintro ((h | ⟨pr, pa, h⟩) | ⟨pr, pa, h⟩)
    · exact Or.inl h
    · exact Or.inr ⟨pr, pa, List.mem_append_left _ h⟩
    · exact Or.inr ⟨pr, pa, List.mem_append_right _ h⟩
  · rintro (h | ⟨pr, pa, h⟩)
    · exact Or.inl (Or.inl h)
    · rcases List.mem_append.mp h with h | h
      · exact Or.inl (Or.inr ⟨pr, pa, h⟩)
      · exact Or.inr ⟨pr, pa, h⟩

theorem SpawnNamed_effect (props : Props) (name : String) (s : State) :
    (actorCell.SpawnNamed props name s).2.cell.children =
      s.cell.children.Add (actorCell.SpawnNamed props name s).1 ∧
    (actorCell.SpawnNamed props name s).2.cell.watching =
      s.cell.watching.Add (actorCell.SpawnNamed props name s).1 ∧
    (actorCell.SpawnNamed props name s).2.world.trace = s.world.trace ++
      [.spawn (actorCell.SpawnNamed props name s).1 props s.cell.self,
        .sendSystemMessage (actorCell.SpawnNamed props name s).1 (.watch s.cell.self)] := by
  refine ⟨rfl, rfl, ?_⟩
  simp [actorCell.SpawnNamed, actorCell.Watch, spawn, PID.sendSystemMessage, State.emit]

theorem grown_SpawnNamed (props : Props) (name : String) (s : State) :
    Grown s (actorCell.SpawnNamed props name s).2 := by
  obtain ⟨hc, _, ht⟩ := SpawnNamed_effect props name s
  refine ⟨_, ht, ?_⟩
  intro p
  rw [hc, mem_Add]
  constructor
  · rintro (h | h)
    · exact Or.inl h
    · exact Or.inr ⟨props, s.cell.self, by rw [h]; simp⟩
  · rintro (h | ⟨pr, pa, h⟩)
    · exact Or.inl h
    · right
      simp only [List.mem_cons, Event.spawn.injEq, List.mem_singleton, reduceCtorEq, or_false,
        List.not_mem_nil] at h
      exact h.1

theorem grown_closed : ContextClosed Grown where
  refl := grown_refl
  trans := grown_trans
  Watch := fun who s =>
    grown_of _ _ [.sendSystemMessage who (.watch s.cell.self)] rfl rfl (by simp)
  Unwatch := fun who s =>
    grown_of _ _ [.sendSystemMessage who (.unwatch s.cell.self)] rfl rfl (by simp)
  Become := fun b s => grown_of _ _ [] rfl (by simp [actorCell.Become]) (by simp)
  BecomeStacked := fun b s => grown_of _ _ [] rfl (by simp [actorCell.BecomeStacked]) (by simp)
  UnbecomeStacked := by
    intro s
    unfold actorCell.UnbecomeStacked
    split
    · exact grown_refl s
    · exact grown_of _ _ [] rfl (by simp) (by simp)
  Spawn := by
    intro props s
    have h := grown_SpawnNamed props (getAutoId s).1 (getAutoId s).2
    exact h
  SpawnNamed := grown_SpawnNamed
  Stash := fun s => grown_of _ _ [] rfl (by simp [actorCell.Stash]) (by simp)
  position := fun i m s => grown_of _ _ [] rfl (by simp) (by simp)
  invoke := fun receive s =>
    grown_of _ _ [.invoke receive s.cell.message s.cell.sender] rfl rfl (by simp)

theorem invokeUserMessage_grown (env : Env) (fuel : Nat) (md : UserMessage) (s : State)
    (r : State × Option Reason) (h : actorCell.invokeUserMessage env fuel md s = some r) :
    Grown s r.1 := by
  have h0 : Grown s (({ s with cell := { s.cell with
      receiveIndex := 0, message := md.message, sender := md.sender } }).emit (.dispatch md)) :=
    grown_of _ _ [.dispatch md] rfl rfl (by simp)
  unfold actorCell.invokeUserMessage at h
  simp only at h
  split at h
  · cases h
  · rename_i s1 hn
    cases h
    exact grown_trans _ _ _ h0 (Next_closed grown_closed env fuel _ _ hn)
  · rename_i s1 e hn
    have h1 := grown_trans _ _ _ h0 (Next_closed grown_closed env fuel _ _ hn)
    split at h
    · simp only [handleRootFailure, Env.Handle] at h
      cases h
      exact grown_trans _ _ _ h1
        (grown_of _ _ [.sendSystemMessage s1.cell.self .restart] rfl rfl (by simp))
    · rename_i parent _
      cases h
      exact grown_trans _ _ _ h1
        (grown_of _ _ [.suspend s1.cell.self,
          .sendSystemMessage parent (.failure s1.cell.self e)] rfl
          (by simp [PID.sendSystemMessage, PID.suspend, State.emit]) (by simp))

theorem drainStash_grown (env : Env) (fuel : Nat) :
    ∀ (n : Nat) (s : State) (r : State × Option Reason),
      actorCell.drainStash env fuel n s = some r → Grown s r.1 := by
  intro n
  induction n with
  | zero =>
    intro s r h
    unfold actorCell.drainStash at h
    split at h
    · cases h; exact grown_refl s
    · cases h; exact grown_refl s
    · simp at h
  | succ n ih =>
    intro s r h
    unfold actorCell.drainStash at h
    split at h
    · cases h; exact grown_refl s
    · cases h; exact grown_refl s
    · rename_i msg rest hst
      have h0 : Grown s { s with cell := { s.cell with stash := some rest } } :=
        grown_of _ _ [] rfl (by simp) (by simp)
      simp only at h
      split at h
      · rcases andThen_eq_some h with ⟨s1, e, h1, rfl⟩ | ⟨s1, h1, h2⟩
        · exact grown_trans _ _ _ h0 (invokeUserMessage_grown env fuel _ _ _ h1)
        · exact grown_trans _ _ _ (grown_trans _ _ _ h0 (invokeUserMessage_grown env fuel _ _ _ h1))
            (ih _ _ h2)
      · cases h; exact h0

theorem tryRestartOrTerminate_grown (env : Env) (fuel : Nat) (s : State)
    (r : State × Option Reason) (h : actorCell.tryRestartOrTerminate env fuel s = some r) :
    Grown s r.1 := by
  unfold actorCell.tryRestartOrTerminate at h
  split at h
  · cases h; exact grown_refl s
  · split at h
    · unfold actorCell.restart at h
      have h0 : Grown s (actorCell.incarnateActor env s) :=
        grown_of _ _ [] rfl (by simp [actorCell.incarnateActor, actorCell.Become]) (by simp)
      rcases andThen_eq_some h with ⟨s1, e, h1, rfl⟩ | ⟨s1, h1, h2⟩
      · exact grown_trans _ _ _ h0 (invokeUserMessage_grown env fuel _ _ _ h1)
      · exact grown_trans _ _ _ (grown_trans _ _ _ h0 (invokeUserMessage_grown env fuel _ _ _ h1))
          (drainStash_grown env fuel _ _ _ h2)
    · unfold actorCell.stopped at h
      have h0 : Grown s (unregisterPID s.cell.self s) :=
        grown_of _ _ [.unregisterPID s.cell.self] rfl (by simp [unregisterPID, State.emit])
          (by simp)
      rcases andThen_eq_some h with ⟨s1, e, h1, rfl⟩ | ⟨s1, h1, h2⟩
      · exact grown_trans _ _ _ h0 (invokeUserMessage_grown env fuel _ _ _ h1)
      · cases h2
        refine grown_trans _ _ _ (grown_trans _ _ _ h0
          (invokeUserMessage_grown env fuel _ _ _ h1)) ?_
        simp only [PID.sendSystemMessage]
        rw [foldl_emit]
        exact grown_of _ _ _ rfl rfl (by simp)

theorem stop_children_grown (l : List PID) (s1 : State) :
    Grown s1 (l.foldl (fun acc child => PID.Stop child acc) s1) := by
  have := foldl_emit (fun c => Event.sendSystemMessage c .stop) l s1
  simp only [PID.Stop, PID.sendSystemMessage]
  rw [this]
  exact grown_of _ _ _ rfl rfl (by simp)

theorem invokeSystemMessage_children (env : Env) (fuel : Nat) (message : SystemMessage)
    (s : State) (r : State × Option Reason)
    (hret : actorCell.invokeSystemMessage env fuel message s = some r) :
    ∃ evs, r.1.world.trace = s.world.trace ++ evs ∧
      ∀ p : PID, p ∈ r.1.cell.children.items ↔
        (p ∈ s.cell.children.items ∧ message ≠ .otherStopped p) ∨
        ∃ props parent, Event.spawn p props parent ∈ evs := by
  have key : ∀ s0 : State, s0.world.trace = s.world.trace →
      (∀ p : PID, p ∈ s0.cell.children.items ↔
        (p ∈ s.cell.children.items ∧ message ≠ .otherStopped p)) →
      Grown s0 r.1 →
      ∃ evs, r.1.world.trace = s.world.trace ++ evs ∧
        ∀ p : PID, p ∈ r.1.cell.children.items ↔
          (p ∈ s.cell.children.items ∧ message ≠ .otherStopped p) ∨
          ∃ props parent, Event.spawn p props parent ∈ evs := by
    intro s0 ht hc ⟨evs, t, hp⟩
    refine ⟨evs, by rw [t, ht], ?_⟩
    intro p
    rw [hp p, hc p]
  have hdisp : ∀ (b : Bool) (md : UserMessage), (∀ w, message ≠ .otherStopped w) →
      ((actorCell.invokeUserMessage env fuel md
        { s with cell := { s.cell with stopping := b } }).andThen fun s1 =>
          actorCell.tryRestartOrTerminate env fuel
            ((s1.cell.children.Values (env.range s1.world.trace.length)).foldl
              (fun acc child => child.Stop acc) s1)) = some r →
      Grown s r.1 := by
    intro b md _ h
    have h0 : Grown s { s with cell := { s.cell with stopping := b } } :=
      grown_of _ _ [] rfl (by simp) (by simp)
    rcases andThen_eq_some h with ⟨s1, e, h1, rfl⟩ | ⟨s1, h1, h2⟩
    · exact grown_trans _ _ _ h0 (invokeUserMessage_grown env fuel _ _ _ h1)
    · exact grown_trans _ _ _ (grown_trans _ _ _ h0 (invokeUserMessage_grown env fuel _ _ _ h1))
        (grown_trans _ _ _ (stop_children_grown _ s1) (tryRestartOrTerminate_grown env fuel _ _ h2))
  have hplain : (∀ w, message ≠ .otherStopped w) → Grown s r.1 →
      ∃ evs, r.1.world.trace = s.world.trace ++ evs ∧
        ∀ p : PID, p ∈ r.1.cell.children.items ↔
          (p ∈ s.cell.children.items ∧ message ≠ .otherStopped p) ∨
          ∃ props parent, Event.spawn p props parent ∈ evs :=
    fun hne hg => key s rfl (fun p => ⟨fun h => ⟨h, hne p⟩, fun h => h.1⟩) hg
  cases message with
  | stop => exact hplain (by simp) (hdisp true _ (by simp) hret)
  | restart => exact hplain (by simp) (hdisp false _ (by simp) hret)
  | otherStopped Who =>
    refine key { s with cell := { s.cell with
        children := s.cell.children.Remove Who
        watching := s.cell.watching.Remove Who } } rfl ?_
      (tryRestartOrTerminate_grown env fuel _ _ hret)
    intro p
    show p ∈ (s.cell.children.Remove Who).items ↔ _
    rw [mem_Remove]
    constructor
    · rintro ⟨h1, h2⟩
      exact ⟨h1, fun h => h2 (by cases h; rfl)⟩
    · rintro ⟨h1, h2⟩
      exact ⟨h1, fun h => h2 (by rw [h])⟩
  | watch w =>
    cases hret
    exact hplain (by simp) (grown_of _ _ [] rfl (by simp) (by simp))
  | unwatch w =>
    cases hret
    exact hplain (by simp) (grown_of _ _ [] rfl (by simp) (by simp))
  | failure Who reason =>
    refine hplain (by simp) ?_
    simp only [actorCell.invokeSystemMessage, actorCell.handleFailure] at hret
    split at hret
    · cases hret; exact grown_of _ _ [.sendSystemMessage Who .resume] rfl rfl (by simp)
    · cases hret; exact grown_of _ _ [.sendSystemMessage Who .restart] rfl rfl (by simp)
    · cases hret; exact grown_of _ _ [.sendSystemMessage Who .stop] rfl rfl (by simp)
    · split at hret
      · rename_i parent _
        cases hret
        exact grown_of _ _ [.sendSystemMessage parent (.failure Who reason)] rfl rfl (by simp)
      · cases hret; exact grown_refl s
  | resume =>
    cases hret
    exact hplain (by simp) (grown_of _ _ [.resume s.cell.self] rfl rfl (by simp))
  | unknown t =>
    cases hret
    exact hplain (by simp) (grown_refl s)

theorem chain_refl (s : State) : Chain s s := ⟨rfl, rfl, rfl, rfl, rfl, rfl⟩

theorem chain_trans {a b c : State} (h1 : Chain a b) (h2 : Chain b c) : Chain a c :=
  ⟨h2.receivePlugins.trans h1.receivePlugins, h2.receiveIndex.trans h1.receiveIndex,
    h2.behavior.trans h1.behavior, h2.message.trans h1.message, h2.sender.trans h1.sender,
    h2.calls.trans h1.calls⟩

theorem chain_Watch (who : PID) (s : State) : Chain s (actorCell.Watch who s) :=
  ⟨rfl, rfl, rfl, rfl, rfl, by
    simp [actorCell.Watch, PID.sendSystemMessage, State.emit, invocations, List.filterMap_append]⟩

theorem chain_Unwatch (who : PID) (s : State) : Chain s (actorCell.Unwatch who s) :=
  ⟨rfl, rfl, rfl, rfl, rfl, by
    simp [actorCell.Unwatch, PID.sendSystemMessage, State.emit, invocations,
      List.filterMap_append]⟩

theorem chain_Stash (s : State) : Chain s (actorCell.Stash s) := ⟨rfl, rfl, rfl, rfl, rfl, rfl⟩

theorem chain_SpawnNamed (props : Props) (name : String) (s : State) :
    Chain s (actorCell.SpawnNamed props name s).2 :=
  ⟨rfl, rfl, rfl, rfl, rfl, by
    simp [actorCell.SpawnNamed, actorCell.Watch, spawn, PID.sendSystemMessage, State.emit,
      invocations, List.filterMap_append]⟩

theorem chain_Spawn (props : Props) (s : State) : Chain s (actorCell.Spawn props s).2 := by
  have h := chain_SpawnNamed props (getAutoId s).1 (getAutoId s).2
  exact ⟨h.receivePlugins, h.receiveIndex, h.behavior, h.message, h.sender, h.calls⟩

theorem quiet_run {p : Prog} (hp : p.Quiet) (next : State → Result) :
    ∀ s : State, ∃ s', p.run next s = some (s', none) ∧ Chain s s' := by
  induction hp with
  | ret => intro s; exact ⟨s, rfl, chain_refl s⟩
  | inspect k _ ih => intro s; exact ih s s
  | Watch who k _ ih =>
    intro s
    obtain ⟨s', h, c⟩ := ih (actorCell.Watch who s)
    exact ⟨s', h, chain_trans (chain_Watch who s) c⟩
  | Unwatch who k _ ih =>
    intro s
    obtain ⟨s', h, c⟩ := ih (actorCell.Unwatch who s)
    exact ⟨s', h, chain_trans (chain_Unwatch who s) c⟩
  | Stash k _ ih =>
    intro s
    obtain ⟨s', h, c⟩ := ih (actorCell.Stash s)
    exact ⟨s', h, chain_trans (chain_Stash s) c⟩
  | Spawn props k _ ih =>
    intro s
    obtain ⟨s', h, c⟩ := ih (actorCell.Spawn props s).1 (actorCell.Spawn props s).2
    exact ⟨s', h, chain_trans (chain_Spawn props s) c⟩
  | SpawnNamed props name k _ ih =>
    intro s
    obtain ⟨s', h, c⟩ := ih (actorCell.SpawnNamed props name s).1
      (actorCell.SpawnNamed props name s).2
    exact ⟨s', h, chain_trans (chain_SpawnNamed props name s) c⟩

theorem once_run {p : Prog} (hp : p.CallsNextOnce) (next : State → Result)
    (Q : State → State → Prop) :
    ∀ s : State, (∀ s0, Chain s s0 → ∃ s1, next s0 = some (s1, none) ∧ Q s0 s1) →
      ∃ s0 s1 s2, Chain s s0 ∧ Q s0 s1 ∧ Chain s1 s2 ∧ p.run next s = some (s2, none) := by
  induction hp with
  | Next k hk =>
    intro s hn
    obtain ⟨s1, h1, q⟩ := hn s (chain_refl s)
    obtain ⟨s2, h2, c⟩ := quiet_run hk next s1
    refine ⟨s, s1, s2, chain_refl s, q, c, ?_⟩
    simp only [Prog.run, h1, Result.andThen]
    exact h2
  | inspect k _ ih => intro s hn; exact ih s s hn
  | Watch who k _ ih =>
    intro s hn
    have c0 := chain_Watch who s
    obtain ⟨s0, s1, s2, c, q, c2, h⟩ := ih (actorCell.Watch who s)
      (fun x hx => hn x (chain_trans c0 hx))
    exact ⟨s0, s1, s2, chain_trans c0 c, q, c2, h⟩
  | Unwatch who k _ ih =>
    intro s hn
    have c0 := chain_Unwatch who s
    obtain ⟨s0, s1, s2, c, q, c2, h⟩ := ih (actorCell.Unwatch who s)
      (fun x hx => hn x (chain_trans c0 hx))
    exact ⟨s0, s1, s2, chain_trans c0 c, q, c2, h⟩
  | Stash k _ ih =>
    intro s hn
    have c0 := chain_Stash s
    obtain ⟨s0, s1, s2, c, q, c2, h⟩ := ih (actorCell.Stash s)
      (fun x hx => hn x (chain_trans c0 hx))
    exact ⟨s0, s1, s2, chain_trans c0 c, q, c2, h⟩
  | Spawn props k _ ih =>
    intro s hn
    have c0 := chain_Spawn props s
    obtain ⟨s0, s1, s2, c, q, c2, h⟩ := ih (actorCell.Spawn props s).1 (actorCell.Spawn props s).2
      (fun x hx => hn x (chain_trans c0 hx))
    exact ⟨s0, s1, s2, chain_trans c0 c, q, c2, h⟩
  | SpawnNamed props name k _ ih =>
    intro s hn
    have c0 := chain_SpawnNamed props name s
    obtain ⟨s0, s1, s2, c, q, c2, h⟩ := ih (actorCell.SpawnNamed props name s).1
      (actorCell.SpawnNamed props name s).2 (fun x hx => hn x (chain_trans c0 hx))
    exact ⟨s0, s1, s2, chain_trans c0 c, q, c2, h⟩

theorem invocations_append (a b : List Event) :
    invocations (a ++ b) = invocations a ++ invocations b := by
  simp [invocations, List.filterMap_append]

theorem Next_chain (env : Env) (pre : List Receive) :
    ∀ (fuel : Nat) (s : State) (rest : List Receive) (t : Receive),
      pre.length < fuel →
      s.cell.receivePlugins.drop s.cell.receiveIndex = pre ++ rest →
      (∀ p ∈ pre, (env.code p).CallsNextOnce) →
      (rest.head? = some t ∨ (rest = [] ∧ s.cell.behavior.head? = some t)) →
      (env.code t).Quiet →
      ∃ s', actorCell.Next env fuel s = some (s', none) ∧
        invocations s'.world.trace = invocations s.world.trace ++
          (pre ++ [t]).map (fun r => (r, s.cell.message)) ∧
        s'.cell.receivePlugins = s.cell.receivePlugins ∧
        s'.cell.behavior = s.cell.behavior ∧
        s'.cell.message = s.cell.message ∧
        s'.cell.sender = s.cell.sender := by
  induction pre with
  | nil =>
    intro fuel s rest t hf hd _ ht hq
    cases fuel with
    | zero => simp at hf
    | succ f =>
      have hidx : s.cell.receivePlugins[s.cell.receiveIndex]? = rest.head? := by
        rw [← List.head?_drop, hd, List.nil_append]
      rcases ht with ht | ⟨hr, hb⟩
      · obtain ⟨s', h, c⟩ := quiet_run hq (actorCell.Next env f)
          (({ s with cell := { s.cell with receiveIndex := s.cell.receiveIndex + 1 } }).emit
            (.invoke t s.cell.message s.cell.sender))
        refine ⟨s', ?_, ?_, c.receivePlugins, c.behavior, c.message, c.sender⟩
        · simp only [actorCell.Next, hidx, ht]
          exact h
        · rw [c.calls]
          simp [State.emit, invocations, List.filterMap_append]
      · obtain ⟨s', h, c⟩ := quiet_run hq (actorCell.Next env f)
          (s.emit (.invoke t s.cell.message s.cell.sender))
        refine ⟨s', ?_, ?_, c.receivePlugins, c.behavior, c.message, c.sender⟩
        · simp only [actorCell.Next, hidx, hr, List.head?_nil, hb]
          exact h
        · rw [c.calls]
          simp [State.emit, invocations, List.filterMap_append]
  | cons p pre ih =>
    intro fuel s rest t hf hd hpre ht hq
    cases fuel with
    | zero => simp at hf
    | succ f =>
      have hidx : s.cell.receivePlugins[s.cell.receiveIndex]? = some p := by
        rw [← List.head?_drop, hd]
        rfl
      have hdrop : s.cell.receivePlugins.drop (s.cell.receiveIndex + 1) = pre ++ rest := by
        rw [← List.tail_drop, hd]
        rfl
      have hlen : pre.length < f := by simpa using hf
      have hstep := once_run (hpre p (List.mem_cons_self _ _)) (actorCell.Next env f)
        (fun s0 sN => invocations sN.world.trace = invocations s0.world.trace ++
            (pre ++ [t]).map (fun r => (r, s0.cell.message)) ∧
          sN.cell.receivePlugins = s0.cell.receivePlugins ∧
          sN.cell.behavior = s0.cell.behavior ∧
          sN.cell.message = s0.cell.message ∧
          sN.cell.sender = s0.cell.sender)
        (({ s with cell := { s.cell with receiveIndex := s.cell.receiveIndex + 1 } }).emit
          (.invoke p s.cell.message s.cell.sender))
        (by
          intro s0 c0
          refine ih f s0 rest t hlen ?_ (fun x hx => hpre x (List.mem_cons_of_mem _ hx)) ?_ hq
          · rw [c0.receivePlugins, c0.receiveIndex]
            exact hdrop
          · rcases ht with ht | ⟨hr, hb⟩
            · exact Or.inl ht
            · exact Or.inr ⟨hr, by rw [c0.behavior]; exact hb⟩)
      obtain ⟨s0, s1, s2, c0, ⟨q1, q2, q3, q4, q5⟩, c2, hrun⟩ := hstep
      refine ⟨s2, ?_, ?_, ?_, ?_, ?_, ?_⟩
      · simp only [actorCell.Next, hidx]
        exact hrun
      · rw [c2.calls, q1, c0.calls, c0.message]
        simp [State.emit, invocations, List.filterMap_append]
      · rw [c2.receivePlugins, q2, c0.receivePlugins]; rfl
      · rw [c2.behavior, q3, c0.behavior]; rfl
      · rw [c2.message, q4, c0.message]; rfl
      · rw [c2.sender, q5, c0.sender]; rfl

theorem invokeUserMessage_chain (env : Env) (fuel : Nat) (md : UserMessage) (s : State)
    (t : Receive) (pre rest : List Receive)
    (hfuel : pre.length < fuel)
    (hlist : s.cell.receivePlugins = pre ++ rest)
    (hpre : ∀ p ∈ pre, (env.code p).CallsNextOnce)
    (hterm : rest.head? = some t ∨ (rest = [] ∧ s.cell.behavior.head? = some t))
    (hquiet : (env.code t).Quiet) :
    ∃ s', actorCell.invokeUserMessage env fuel md s = some (s', none) ∧
      invocations s'.world.trace = invocations s.world.trace ++
        (pre ++ [t]).map (fun r => (r, md.message)) := by
  obtain ⟨s', h, hc, _⟩ := Next_chain env pre fuel
    (({ s with cell := { s.cell with
      receiveIndex := 0, message := md.message, sender := md.sender } }).emit (.dispatch md))
    rest t hfuel (by simpa [State.emit] using hlist) hpre hterm hquiet
  refine ⟨s', ?_, ?_⟩
  · simp only [actorCell.invokeUserMessage, h]
  · rw [hc]
    simp [State.emit, invocations, List.filterMap_append]

/-- C11: a user dispatch on a cell whose receive list is `pre ++ rest`, where
every receive function of `pre` calls `Next` exactly once and the receive
function `t` that comes after `pre` (the head of `rest`, or the top of the
behavior stack when `rest` is empty) does not call `Next`: the dispatch returns
and calls, from index 0 and in list order, each receive function of `pre` once
and then `t` once, all with the dispatched message, and nothing after `t`.
With `rest` empty this is the whole list followed by the behavior; with `rest`
non-empty no later receive function and no behavior is called. -/
theorem dispatch_runs_chain_in_order (env : Env) (fuel : Nat) (md : UserMessage) (s : State)
    (t : Receive) (pre rest : List Receive)
    (hfuel : pre.length < fuel)
    (hlist : s.cell.receivePlugins = pre ++ rest)
    (hpre : ∀ p ∈ pre, (env.code p).CallsNextOnce)
    (hterm : rest.head? = some t ∨ (rest = [] ∧ s.cell.behavior.head? = some t))
    (hquiet : (env.code t).Quiet) :
    ∃ s', actorCell.invokeUserMessage env fuel md s = some (s', none) ∧
      invocations s'.world.trace = invocations s.world.trace ++
        (pre ++ [t]).map (fun r => (r, md.message)) :=
  invokeUserMessage_chain env fuel md s t pre rest hfuel hlist hpre hterm hquiet

/-- Witness for C11: a new cell with middleware `[1, 2]`, whose chain runs to
the behavior 9; and a new cell with middleware `[1, 9, 2]`, where 9 does not
call `Next`. -/
theorem dispatch_runs_chain_in_order_witness :
    (∃ s', actorCell.invokeUserMessage chainEnv 4 ⟨.value "m", none⟩
        (NewActorCell chainEnv ⟨0, .defaultSupervisionStrategy, [1, 2]⟩ none ⟨"a", 1⟩ sampleWorld)
        = some (s', none) ∧
      invocations s'.world.trace = invocations sampleWorld.trace ++
        ([1, 2, AutoReceive] ++ [9]).map (fun r => (r, Message.value "m"))) ∧
    (∃ s', actorCell.invokeUserMessage chainEnv 2 ⟨.value "m", none⟩
        (NewActorCell chainEnv ⟨0, .defaultSupervisionStrategy, [1, 9, 2]⟩ none ⟨"a", 1⟩ sampleWorld)
        = some (s', none) ∧
      invocations s'.world.trace = invocations sampleWorld.trace ++
        ([1] ++ [9]).map (fun r => (r, Message.value "m"))) :=
  ⟨dispatch_runs_chain_in_order chainEnv 4 ⟨.value "m", none⟩
    (NewActorCell chainEnv ⟨0, .defaultSupervisionStrategy, [1, 2]⟩ none ⟨"a", 1⟩ sampleWorld)
    9 [1, 2, AutoReceive] [] (by decide) rfl
    (by
      intro p hp
      simp only [List.mem_cons, List.mem_singleton, List.not_mem_nil, or_false] at hp
      rcases hp with h | h | h <;> subst h <;> exact Prog.CallsNextOnce.Next _ Prog.Quiet.ret)
    (Or.inr ⟨rfl, rfl⟩) Prog.Quiet.ret,
   dispatch_runs_chain_in_order chainEnv 2 ⟨.value "m", none⟩
    (NewActorCell chainEnv ⟨0, .defaultSupervisionStrategy, [1, 9, 2]⟩ none ⟨"a", 1⟩ sampleWorld)
    9 [1] [9, 2, AutoReceive] (by decide) rfl
    (by
      intro p hp
      simp only [List.mem_singleton] at hp
      subst hp
      exact Prog.CallsNextOnce.Next _ Prog.Quiet.ret)
    (Or.inl rfl) Prog.Quiet.ret⟩

/-- C13: `Become(h)` leaves a behavior stack with the single entry `h`, whatever
the stack was; a following user dispatch whose receive list runs to its end
(each entry calls `Next` once) and where `h` does not call `Next` calls the
receive list in order and then `h`, and no other behavior. -/
theorem Become_then_dispatch_invokes_it (env : Env) (fuel : Nat) (md : UserMessage)
    (h : Receive) (s : State)
    (hfuel : s.cell.receivePlugins.length < fuel)
    (hpre : ∀ p ∈ s.cell.receivePlugins, (env.code p).CallsNextOnce)
    (hquiet : (env.code h).Quiet) :
    (actorCell.Become h s).cell.behavior = [h] ∧
    ∃ s', actorCell.invokeUserMessage env fuel md (actorCell.Become h s) = some (s', none) ∧
      invocations s'.world.trace = invocations s.world.trace ++
        (s.cell.receivePlugins ++ [h]).map (fun r => (r, md.message)) :=
  ⟨rfl, invokeUserMessage_chain env fuel md (actorCell.Become h s) h s.cell.receivePlugins []
    hfuel (by simp [actorCell.Become]) hpre (Or.inr ⟨rfl, rfl⟩) hquiet⟩

/-- Witness for C13: `Become(9)` on a stack of three behaviors. -/
theorem Become_then_dispatch_invokes_it_witness :
    (actorCell.Become 9 ⟨{ sampleCell ⟨"a", 1⟩ none with
        behavior := [5, 4, 3], receivePlugins := [1, AutoReceive] }, sampleWorld⟩).cell.behavior
      = [9] ∧
    ∃ s', actorCell.invokeUserMessage chainEnv 3 ⟨.value "m", none⟩
        (actorCell.Become 9 ⟨{ sampleCell ⟨"a", 1⟩ none with
          behavior := [5, 4, 3], receivePlugins := [1, AutoReceive] }, sampleWorld⟩)
        = some (s', none) ∧
      invocations s'.world.trace = invocations sampleWorld.trace ++
        ([1, AutoReceive] ++ [9]).map (fun r => (r, Message.value "m")) :=
  Become_then_dispatch_invokes_it chainEnv 3 ⟨.value "m", none⟩ 9
    ⟨{ sampleCell ⟨"a", 1⟩ none with
        behavior := [5, 4, 3], receivePlugins := [1, AutoReceive] }, sampleWorld⟩
    (by decide)
    (by
      intro p hp
      simp only [List.mem_cons, List.mem_singleton, List.not_mem_nil, or_false] at hp
      rcases hp with h | h <;> subst h <;> exact Prog.CallsNextOnce.Next _ Prog.Quiet.ret)
    Prog.Quiet.ret

/-- Witness for C15: on one behavior `UnbecomeStacked` panics and changes
nothing, on two it pops the top, and a new cell stays non-empty under a run of
calls that tries to pop more than was pushed. -/
theorem unbecomeStacked_fails_only_at_base_witness :
    (actorCell.UnbecomeStacked ⟨sampleCell ⟨"a", 1⟩ none, sampleWorld⟩).1 =
      ⟨sampleCell ⟨"a", 1⟩ none, sampleWorld⟩ ∧
    (actorCell.UnbecomeStacked
        ⟨{ sampleCell ⟨"a", 1⟩ none with behavior := [3, 2] }, sampleWorld⟩).1 =
      ⟨{ sampleCell ⟨"a", 1⟩ none with behavior := [2] }, sampleWorld⟩ ∧
    ([BehaviorCall.UnbecomeStacked, .BecomeStacked 3, .UnbecomeStacked, .UnbecomeStacked].foldl
      (fun acc c => c.apply acc)
      (NewActorCell quietEnv ⟨0, .defaultSupervisionStrategy, []⟩ none ⟨"a", 1⟩
        sampleWorld)).cell.behavior ≠ [] :=
  ⟨(unbecomeStacked_fails_only_at_base.1 ⟨sampleCell ⟨"a", 1⟩ none, sampleWorld⟩).2.2.1 (by decide),
    ((unbecomeStacked_fails_only_at_base.1
      ⟨{ sampleCell ⟨"a", 1⟩ none with behavior := [3, 2] }, sampleWorld⟩).2.2.2 (by decide)).1,
    (unbecomeStacked_fails_only_at_base.2 quietEnv ⟨0, .defaultSupervisionStrategy, []⟩ none ⟨"a", 1⟩
      sampleWorld _).2⟩

/-! ## What a dispatch delivers, and the loops over sets and stash -/

theorem Next_head (env : Env) (fuel : Nat) (s : State) (r : State × Option Reason) (f : Receive)
    (h : actorCell.Next env fuel s = some r)
    (hf : s.cell.receivePlugins[s.cell.receiveIndex]? = some f ∨
      (s.cell.receivePlugins[s.cell.receiveIndex]? = none ∧ s.cell.behavior.head? = some f)) :
    ∃ rest, r.1.world.trace = s.world.trace ++ .invoke f s.cell.message s.cell.sender :: rest ∧
      ∀ e ∈ rest, Event.fromContext e = true := by
  cases fuel with
  | zero => simp [actorCell.Next] at h
  | succ n =>
    simp only [actorCell.Next] at h
    split at h
    · rename_i receive hrec
      have hfr : f = receive := by
        rcases hf with hf | ⟨hf, _⟩
        · rw [hrec] at hf; cases hf; rfl
        · rw [hrec] at hf; cases hf
      subst hfr
      obtain ⟨evs, ht, hp⟩ := (run_frame (Next_frame env n) _ _ _ h).trace
      refine ⟨evs, ?_, hp⟩
      rw [ht]
      simp [State.emit]
    · rename_i hrec
      split at h
      · rename_i hb
        rcases hf with hf | ⟨_, hf⟩
        · rw [hrec] at hf; cases hf
        · rw [hb] at hf; cases hf
      · rename_i receive hb
        have hfr : f = receive := by
          rcases hf with hf | ⟨_, hf⟩
          · rw [hrec] at hf; cases hf
          · rw [hb] at hf; cases hf; rfl
        subst hfr
        obtain ⟨evs, ht, hp⟩ := (run_frame (Next_frame env n) _ _ _ h).trace
        refine ⟨evs, ?_, hp⟩
        rw [ht]
        simp [State.emit]

theorem invokeUserMessage_cases (env : Env) (fuel : Nat) (md : UserMessage) (s : State)
    (r : State × Option Reason) (h : actorCell.invokeUserMessage env fuel md s = some r) :
    ∃ s1 o tail, actorCell.Next env fuel (({ s with cell := { s.cell with
        receiveIndex := 0, message := md.message, sender := md.sender } }).emit (.dispatch md))
        = some (s1, o) ∧
      r.1.cell = s1.cell ∧ r.2 = none ∧ r.1.world.trace = s1.world.trace ++ tail ∧
      (∀ e ∈ tail, Event.fromContext e = false) ∧ (∀ e ∈ tail, Event.fromDispatch e = true) := by
  unfold actorCell.invokeUserMessage at h
  simp only at h
  split at h
  · cases h
  · rename_i s1 hn
    cases h
    exact ⟨s1, none, [], hn, rfl, rfl, by simp, by simp, by simp⟩
  · rename_i s1 e hn
    split at h
    · simp only [handleRootFailure, Env.Handle] at h
      cases h
      refine ⟨s1, some e, [.sendSystemMessage s1.cell.self .restart], hn, rfl, rfl, rfl, ?_, ?_⟩
      · intro x hx
        simp at hx; subst hx; rfl
      · intro x hx
        simp at hx; subst hx; rfl
    · rename_i parent hpar
      cases h
      refine ⟨s1, some e,
        [.suspend s1.cell.self, .sendSystemMessage parent (.failure s1.cell.self e)],
        hn, rfl, rfl, ?_, ?_, ?_⟩
      · simp [PID.sendSystemMessage, PID.suspend, State.emit]
      · intro x hx
        simp at hx
        rcases hx with hx | hx <;> subst hx <;> rfl
      · intro x hx
        simp at hx
        rcases hx with hx | hx <;> subst hx <;> rfl

theorem invokeUserMessage_delivers (env : Env) (fuel : Nat) (md : UserMessage) (s : State)
    (r : State × Option Reason) (f : Receive)
    (h : actorCell.invokeUserMessage env fuel md s = some r)
    (hf : s.cell.chainHead = some f) :
    ∃ body, r.1.world.trace =
        s.world.trace ++ .dispatch md :: .invoke f md.message md.sender :: body ∧
      ∀ e ∈ body, Event.fromDispatch e = true := by
  obtain ⟨s1, o, tail, hn, _, _, ht, _, hp⟩ := invokeUserMessage_cases env fuel md s r h
  have hf' : (s.cell.receivePlugins[0]? = some f ∨
      (s.cell.receivePlugins[0]? = none ∧ s.cell.behavior.head? = some f)) := by
    unfold actorCell.chainHead at hf
    split at hf
    · rename_i receive hrec
      cases hf
      exact Or.inl hrec
    · rename_i hrec
      exact Or.inr ⟨hrec, hf⟩
  obtain ⟨rest, hr, hc⟩ := Next_head env fuel _ (s1, o) f hn hf'
  refine ⟨rest ++ tail, ?_, ?_⟩
  · rw [ht, hr]
    simp [State.emit]
  · intro e he
    rcases List.mem_append.mp he with h1 | h1
    · exact fromDispatch_of_fromContext (hc e h1)
    · exact hp e h1

theorem dispatch_closed {R : State → State → Prop} (hR : DispatchClosed R) (env : Env)
    (fuel : Nat) (md : UserMessage) (s : State) (r : State × Option Reason)
    (h : actorCell.invokeUserMessage env fuel md s = some r) : R s r.1 := by
  obtain ⟨s1, o, tail, hn, hc, _, ht, hp, _⟩ := invokeUserMessage_cases env fuel md s r h
  exact hR.outside _ _ _
    (hR.context.trans _ _ _ (hR.enter s md) (Next_closed hR.context env fuel _ _ hn))
    hc ⟨tail, ht, hp⟩

theorem drain_closed {R : State → State → Prop} (hR : DispatchClosed R) (env : Env)
    (fuel : Nat) :
    ∀ (n : Nat) (s : State) (r : State × Option Reason),
      actorCell.drainStash env fuel n s = some r → R s r.1 := by
  intro n
  induction n with
  | zero =>
    intro s r h
    unfold actorCell.drainStash at h
    split at h
    · cases h; exact hR.context.refl s
    · cases h; exact hR.context.refl s
    · simp at h
  | succ n ih =>
    intro s r h
    unfold actorCell.drainStash at h
    split at h
    · cases h; exact hR.context.refl s
    · cases h; exact hR.context.refl s
    · rename_i msg rest hst
      have h0 : R s { s with cell := { s.cell with stash := some rest } } := hR.stash s _
      simp only at h
      split at h
      · rcases andThen_eq_some h with ⟨s1, e, h1, rfl⟩ | ⟨s1, h1, h2⟩
        · exact hR.context.trans _ _ _ h0 (dispatch_closed hR env fuel _ _ _ h1)
        · exact hR.context.trans _ _ _
            (hR.context.trans _ _ _ h0 (dispatch_closed hR env fuel _ _ _ h1)) (ih _ _ h2)
      · cases h; exact h0

theorem headKept_closed : DispatchClosed HeadKept where
  context :=
    { refl := fun s => ⟨rfl, fun h => h⟩
      trans := fun a b c h1 h2 => ⟨h2.1.trans h1.1, fun h => h2.2 (h1.2 h)⟩
      Watch := fun who s => ⟨rfl, fun h => h⟩
      Unwatch := fun who s => ⟨rfl, fun h => h⟩
      Become := fun b s => ⟨rfl, fun _ => by simp [actorCell.Become]⟩
      BecomeStacked := fun b s => ⟨rfl, fun _ => by simp [actorCell.BecomeStacked]⟩
      UnbecomeStacked := by
        intro s
        unfold actorCell.UnbecomeStacked
        split
        · exact ⟨rfl, fun h => h⟩
        · rename_i hlen
          refine ⟨rfl, fun _ => ?_⟩
          show s.cell.behavior.tail ≠ []
          intro ht
          apply hlen
          have := List.length_tail s.cell.behavior
          rw [ht] at this
          simp at this
          omega
      Spawn := fun props s => ⟨rfl, fun h => h⟩
      SpawnNamed := fun props name s => ⟨rfl, fun h => h⟩
      Stash := fun s => ⟨rfl, fun h => h⟩
      position := fun i m s => ⟨rfl, fun h => h⟩
      invoke := fun receive s => ⟨rfl, fun h => h⟩ }
  enter := fun s md => ⟨rfl, fun h => h⟩
  stash := fun s st => ⟨rfl, fun h => h⟩
  outside := fun a b c h hc _ => by
    refine ⟨?_, ?_⟩
    · rw [hc]; exact h.1
    · rw [hc]; exact h.2

theorem chainHead_of_headKept {s s' : State} (h : HeadKept s s') (f : Receive)
    (hf : s.cell.chainHead = some f) : ∃ f', s'.cell.chainHead = some f' := by
  unfold actorCell.chainHead at hf ⊢
  rw [h.1]
  split at hf
  · rename_i receive hrec
    exact ⟨receive, rfl⟩
  · rename_i hrec
    have hb : s.cell.behavior ≠ [] := by
      intro hb; rw [hb] at hf; cases hf
    have hb' := h.2 hb
    cases hbb : s'.cell.behavior with
    | nil => exact absurd hbb hb'
    | cons a l => exact ⟨a, rfl⟩

theorem watching_of (s s' : State) (evs : List Event)
    (hc : s'.cell.watching = s.cell.watching)
    (ht : s'.world.trace = s.world.trace ++ evs) : Watching s s' :=
  ⟨evs, ht, fun p h => Or.inl (by rw [← hc]; exact h), fun p h => Or.inl (by rw [hc]; exact h)⟩

theorem watching_trans (a b c : State) (h1 : Watching a b) (h2 : Watching b c) :
    Watching a c := by
  obtain ⟨e1, t1, p1, q1⟩ := h1
  obtain ⟨e2, t2, p2, q2⟩ := h2
  refine ⟨e1 ++ e2, by rw [t2, t1, List.append_assoc], ?_, ?_⟩
  · intro p hp
    rcases p2 p hp with h | ⟨w, h⟩
    · rcases p1 p h with h' | ⟨w, h'⟩
      · exact Or.inl h'
      · exact Or.inr ⟨w, List.mem_append_left _ h'⟩
    · exact Or.inr ⟨w, List.mem_append_right _ h⟩
  · intro p hp
    rcases q1 p hp with h | ⟨w, h⟩
    · rcases q2 p h with h' | ⟨w, h'⟩
      · exact Or.inl h'
      · exact Or.inr ⟨w, List.mem_append_right _ h'⟩
    · exact Or.inr ⟨w, List.mem_append_left _ h⟩

theorem watching_SpawnNamed (props : Props) (name : String) (s : State) :
    Watching s (actorCell.SpawnNamed props name s).2 := by
  obtain ⟨_, hw, ht⟩ := SpawnNamed_effect props name s
  refine ⟨_, ht, ?_, ?_⟩
  · intro p hp
    rw [hw, mem_Add] at hp
    rcases hp with h | h
    · exact Or.inl h
    · exact Or.inr ⟨s.cell.self, by rw [h]; simp⟩
  · intro p hp
    left
    rw [hw, mem_Add]
    exact Or.inl hp

theorem watching_closed : DispatchClosed Watching where
  context :=
    { refl := fun s => watching_of s s [] rfl (by simp)
      trans := watching_trans
      Watch := by
        intro who s
        refine ⟨[.sendSystemMessage who (.watch s.cell.self)], rfl, ?_, ?_⟩
        · intro p hp
          have hp' : p ∈ (s.cell.watching.Add who).items := hp
          rw [mem_Add] at hp'
          rcases hp' with h | h
          · exact Or.inl h
          · exact Or.inr ⟨s.cell.self, by rw [h]; simp⟩
        · intro p hp
          left
          show p ∈ (s.cell.watching.Add who).items
          rw [mem_Add]
          exact Or.inl hp
      Unwatch := by
        intro who s
        refine ⟨[.sendSystemMessage who (.unwatch s.cell.self)], rfl, ?_, ?_⟩
        · intro p hp
          have hp' : p ∈ (s.cell.watching.Remove who).items := hp
          rw [mem_Remove] at hp'
          exact Or.inl hp'.1
        · intro p hp
          by_cases h : p = who
          · exact Or.inr ⟨s.cell.self, by rw [h]; simp⟩
          · left
            show p ∈ (s.cell.watching.Remove who).items
            rw [mem_Remove]
            exact ⟨hp, h⟩
      Become := fun b s => watching_of _ _ [] rfl (by simp [actorCell.Become])
      BecomeStacked := fun b s => watching_of _ _ [] rfl (by simp [actorCell.BecomeStacked])
      UnbecomeStacked := by
        intro s
        unfold actorCell.UnbecomeStacked
        split
        · exact watching_of _ _ [] rfl (by simp)
        · exact watching_of _ _ [] rfl (by simp)
      Spawn := by
        intro props s
        have h := watching_SpawnNamed props (getAutoId s).1 (getAutoId s).2
        exact h
      SpawnNamed := watching_SpawnNamed
      Stash := fun s => watching_of _ _ [] rfl (by simp [actorCell.Stash])
      position := fun i m s => watching_of _ _ [] rfl (by simp)
      invoke := fun receive s =>
        watching_of _ _ [.invoke receive s.cell.message s.cell.sender] rfl rfl }
  enter := fun s md => watching_of _ _ [.dispatch md] rfl rfl
  stash := fun s st => watching_of _ _ [] rfl (by simp)
  outside := by
    intro a b c h hc ⟨tail, ht, _⟩
    exact watching_trans _ _ _ h (watching_of _ _ tail (by rw [hc]) ht)

theorem drainStash_delivered (env : Env) (fuel : Nat) :
    ∀ (n : Nat) (s : State) (r : State × Option Reason),
      actorCell.drainStash env fuel n s = some r → (∃ f, s.cell.chainHead = some f) →
      ∃ calls evs, r.1.world.trace = s.world.trace ++ evs ∧ Delivered calls evs ∧
        (r.2 = none → r.1.cell.stash.getD [] = []) ∧
        (r.2 = none ∨
          r.2 = some "interface conversion: interface {} is not actor.UserMessage") ∧
        ((∀ md s0 r0, actorCell.invokeUserMessage env fuel md s0 = some r0 →
            r0.1.cell.stash = s0.cell.stash) →
          ∃ rest, s.cell.stash.getD [] = (calls.map Prod.snd).map UserMessage.box ++ rest ∧
            r.1.cell.stash.getD [] = rest.tail ∧
            (r.2 = none → rest = []) ∧
            (r.2 ≠ none → ∃ m, rest.head? = some m ∧ ∀ md : UserMessage, m ≠ md.box)) := by
  intro n
  induction n with
  | zero =>
    intro s r h _
    unfold actorCell.drainStash at h
    split at h
    · rename_i hst
      cases h
      exact ⟨[], [], by simp, .nil, fun _ => by simp [hst], Or.inl rfl,
        fun _ => ⟨[], by simp [hst], by simp [hst], fun _ => rfl, fun h => absurd rfl h⟩⟩
    · rename_i hst
      cases h
      exact ⟨[], [], by simp, .nil, fun _ => by simp [hst], Or.inl rfl,
        fun _ => ⟨[], by simp [hst], by simp [hst], fun _ => rfl, fun h => absurd rfl h⟩⟩
    · simp at h
  | succ n ih =>
    intro s r h hhead
    unfold actorCell.drainStash at h
    split at h
    · rename_i hst
      cases h
      exact ⟨[], [], by simp, .nil, fun _ => by simp [hst], Or.inl rfl,
        fun _ => ⟨[], by simp [hst], by simp [hst], fun _ => rfl, fun h => absurd rfl h⟩⟩
    · rename_i hst
      cases h
      exact ⟨[], [], by simp, .nil, fun _ => by simp [hst], Or.inl rfl,
        fun _ => ⟨[], by simp [hst], by simp [hst], fun _ => rfl, fun h => absurd rfl h⟩⟩
    · rename_i msg rest0 hst
      simp only at h
      split at h
      · rename_i message sender
        obtain ⟨f, hf⟩ := hhead
        rcases andThen_eq_some h with ⟨s1, e, h1, rfl⟩ | ⟨s1, h1, h2⟩
        · have := (invokeUserMessage_cases env fuel _ _ _ h1).choose_spec.choose_spec.choose_spec.2.2.1
          cases this
        · have hf1 : ({ s with cell := { s.cell with stash := some rest0 } } : State).cell.chainHead
              = some f := hf
          obtain ⟨body, ht, hp⟩ := invokeUserMessage_delivers env fuel _ _ _ f h1 hf1
          have hk := dispatch_closed headKept_closed env fuel _ _ _ h1
          obtain ⟨calls, evs, t2, d2, e2, o2, k2⟩ := ih s1 r h2 (chainHead_of_headKept hk f hf1)
          refine ⟨(f, ⟨message, sender⟩) :: calls,
            .dispatch ⟨message, sender⟩ :: .invoke f message sender :: (body ++ evs),
            ?_, .cons f ⟨message, sender⟩ body calls evs hp d2, e2, o2, ?_⟩
          · rw [t2]
            simp only at ht
            rw [ht]
            simp
          · intro hkeep
            obtain ⟨rest, r1, r2, r3, r4⟩ := k2 hkeep
            have hs1 : s1.cell.stash = some rest0 := hkeep _ _ _ h1
            refine ⟨rest, ?_, r2, r3, r4⟩
            rw [hst]
            rw [hs1] at r1
            simp only [Option.getD_some] at r1 ⊢
            rw [r1]
            simp [UserMessage.box]
      · rename_i hnb
        cases h
        refine ⟨[], [], by simp, .nil, (fun h => by cases h), Or.inr rfl, fun _ => ?_⟩
        refine ⟨msg :: rest0, by simp [hst], by simp, (fun h => by cases h), fun _ => ⟨msg, rfl, ?_⟩⟩
        intro md hmd
        exact hnb md.message md.sender hmd

theorem drainStash_frame (env : Env) (fuel : Nat) :
    ∀ (n : Nat) (s : State) (r : State × Option Reason),
      actorCell.drainStash env fuel n s = some r →
      r.1.cell.actor = s.cell.actor ∧ r.1.cell.self = s.cell.self ∧
      r.1.cell.parent = s.cell.parent ∧ r.1.cell.watchers = s.cell.watchers ∧
      r.1.cell.receivePlugins = s.cell.receivePlugins ∧
      ((∀ md s0 r0, actorCell.invokeUserMessage env fuel md s0 = some r0 →
          r0.1.cell.behavior = s0.cell.behavior ∧ r0.1.cell.children = s0.cell.children) →
        r.1.cell.behavior = s.cell.behavior ∧ r.1.cell.children = s.cell.children) := by
  intro n
  induction n with
  | zero =>
    intro s r h
    unfold actorCell.drainStash at h
    split at h
    · cases h; exact ⟨rfl, rfl, rfl, rfl, rfl, fun _ => ⟨rfl, rfl⟩⟩
    · cases h; exact ⟨rfl, rfl, rfl, rfl, rfl, fun _ => ⟨rfl, rfl⟩⟩
    · simp at h
  | succ n ih =>
    intro s r h
    unfold actorCell.drainStash at h
    split at h
    · cases h; exact ⟨rfl, rfl, rfl, rfl, rfl, fun _ => ⟨rfl, rfl⟩⟩
    · cases h; exact ⟨rfl, rfl, rfl, rfl, rfl, fun _ => ⟨rfl, rfl⟩⟩
    · rename_i msg rest hst
      simp only at h
      split at h
      · rcases andThen_eq_some h with ⟨s1, e, h1, rfl⟩ | ⟨s1, h1, h2⟩
        · have d := (invokeUserMessage_dispatched env fuel _ _ _ h1).2
          refine ⟨d.actor, d.self, d.parent, d.watchers, d.receivePlugins, fun hk => ?_⟩
          have hk1 := hk _ _ _ h1
          exact hk1
        · have d := (invokeUserMessage_dispatched env fuel _ _ _ h1).2
          obtain ⟨a1, a2, a3, a4, a5, a6⟩ := ih _ _ h2
          refine ⟨a1.trans d.actor, a2.trans d.self, a3.trans d.parent, a4.trans d.watchers,
            a5.trans d.receivePlugins, fun hk => ?_⟩
          obtain ⟨b1, b2⟩ := a6 hk
          obtain ⟨c1, c2⟩ := hk _ _ _ h1
          exact ⟨b1.trans c1, b2.trans c2⟩
      · cases h; exact ⟨rfl, rfl, rfl, rfl, rfl, fun _ => ⟨rfl, rfl⟩⟩

theorem chainEnv_Next_keeps :
    ∀ (fuel : Nat) (s : State) (r : State × Option Reason),
      actorCell.Next chainEnv fuel s = some r →
      r.1.cell.stash = s.cell.stash ∧ r.1.cell.behavior = s.cell.behavior ∧
      r.1.cell.children = s.cell.children := by
  intro fuel
  induction fuel with
  | zero => intro s r h; simp [actorCell.Next] at h
  | succ n ih =>
    have body : ∀ (receive : Receive) (s0 : State) (r : State × Option Reason),
        (chainEnv.code receive).run (actorCell.Next chainEnv n) s0 = some r →
        r.1.cell.stash = s0.cell.stash ∧ r.1.cell.behavior = s0.cell.behavior ∧
        r.1.cell.children = s0.cell.children := by
      intro receive s0 r h
      simp only [chainEnv] at h
      split at h
      · simp only [Prog.run] at h
        cases h
        exact ⟨rfl, rfl, rfl⟩
      · simp only [Prog.run] at h
        rcases andThen_eq_some h with ⟨s1, e, h1, rfl⟩ | ⟨s1, h1, h2⟩
        · exact ih _ _ h1
        · cases h2
          exact ih _ _ h1
    intro s r h
    simp only [actorCell.Next] at h
    split at h
    · have hb := body _ _ _ h
      exact hb
    · split at h
      · cases h; exact ⟨rfl, rfl, rfl⟩
      · have hb := body _ _ _ h
        exact hb

theorem chainEnv_dispatch_keeps (fuel : Nat) (md : UserMessage) (s : State)
    (r : State × Option Reason)
    (h : actorCell.invokeUserMessage chainEnv fuel md s = some r) :
    r.1.cell.stash = s.cell.stash ∧ r.1.cell.behavior = s.cell.behavior ∧
    r.1.cell.children = s.cell.children := by
  obtain ⟨s1, o, tail, hn, hc, _, _, _, _⟩ := invokeUserMessage_cases chainEnv fuel md s r h
  obtain ⟨a, b, c⟩ := chainEnv_Next_keeps fuel _ _ hn
  rw [hc]
  exact ⟨a, b, c⟩

theorem tryRestartOrTerminate_watching (env : Env) (fuel : Nat) (s : State)
    (r : State × Option Reason) (h : actorCell.tryRestartOrTerminate env fuel s = some r) :
    Watching s r.1 := by
  unfold actorCell.tryRestartOrTerminate at h
  split at h
  · cases h; exact watching_closed.context.refl s
  · split at h
    · unfold actorCell.restart at h
      have h0 : Watching s (actorCell.incarnateActor env s) :=
        watching_of _ _ [] rfl (by simp [actorCell.incarnateActor, actorCell.Become])
      rcases andThen_eq_some h with ⟨s1, e, h1, rfl⟩ | ⟨s1, h1, h2⟩
      · exact watching_trans _ _ _ h0 (dispatch_closed watching_closed env fuel _ _ _ h1)
      · exact watching_trans _ _ _
          (watching_trans _ _ _ h0 (dispatch_closed watching_closed env fuel _ _ _ h1))
          (drain_closed watching_closed env fuel _ _ _ h2)
    · unfold actorCell.stopped at h
      have h0 : Watching s (unregisterPID s.cell.self s) :=
        watching_of _ _ [.unregisterPID s.cell.self] rfl (by simp [unregisterPID, State.emit])
      rcases andThen_eq_some h with ⟨s1, e, h1, rfl⟩ | ⟨s1, h1, h2⟩
      · exact watching_trans _ _ _ h0 (dispatch_closed watching_closed env fuel _ _ _ h1)
      · cases h2
        refine watching_trans _ _ _ (watching_trans _ _ _ h0
          (dispatch_closed watching_closed env fuel _ _ _ h1)) ?_
        simp only [PID.sendSystemMessage]
        rw [foldl_emit]
        exact watching_of _ _ _ rfl rfl

theorem stop_children_watching (l : List PID) (s1 : State) :
    Watching s1 (l.foldl (fun acc child => PID.Stop child acc) s1) := by
  have := foldl_emit (fun c => Event.sendSystemMessage c .stop) l s1
  simp only [PID.Stop, PID.sendSystemMessage]
  rw [this]
  exact watching_of _ _ _ rfl rfl

theorem invokeSystemMessage_watching (env : Env) (fuel : Nat) (message : SystemMessage)
    (s : State) (r : State × Option Reason)
    (hret : actorCell.invokeSystemMessage env fuel message s = some r) :
    ∃ evs, r.1.world.trace = s.world.trace ++ evs ∧
      (∀ p : PID, p ∈ r.1.cell.watching.items →
        (p ∈ s.cell.watching.items ∧ message ≠ .otherStopped p) ∨
        ∃ w, Event.sendSystemMessage p (.watch w) ∈ evs) ∧
      (∀ p : PID, p ∈ s.cell.watching.items → message ≠ .otherStopped p →
        p ∈ r.1.cell.watching.items ∨ ∃ w, Event.sendSystemMessage p (.unwatch w) ∈ evs) := by
  have key : ∀ s0 : State, s0.world.trace = s.world.trace →
      (∀ p : PID, p ∈ s0.cell.watching.items ↔
        (p ∈ s.cell.watching.items ∧ message ≠ .otherStopped p)) →
      Watching s0 r.1 →
      ∃ evs, r.1.world.trace = s.world.trace ++ evs ∧
        (∀ p : PID, p ∈ r.1.cell.watching.items →
          (p ∈ s.cell.watching.items ∧ message ≠ .otherStopped p) ∨
          ∃ w, Event.sendSystemMessage p (.watch w) ∈ evs) ∧
        (∀ p : PID, p ∈ s.cell.watching.items → message ≠ .otherStopped p →
          p ∈ r.1.cell.watching.items ∨ ∃ w, Event.sendSystemMessage p (.unwatch w) ∈ evs) := by
    intro s0 ht hc ⟨evs, t, hp, hq⟩
    refine ⟨evs, by rw [t, ht], ?_, ?_⟩
    · intro p h
      rcases hp p h with h' | h'
      · exact Or.inl ((hc p).mp h')
      · exact Or.inr h'
    · intro p h hne
      exact hq p ((hc p).mpr ⟨h, hne⟩)
  have hdisp : ∀ (b : Bool) (md : UserMessage),
      ((actorCell.invokeUserMessage env fuel md
        { s with cell := { s.cell with stopping := b } }).andThen fun s1 =>
          actorCell.tryRestartOrTerminate env fuel
            ((s1.cell.children.Values (env.range s1.world.trace.length)).foldl
              (fun acc child => child.Stop acc) s1)) = some r →
      Watching s r.1 := by
    intro b md h
    have h0 : Watching s { s with cell := { s.cell with stopping := b } } :=
      watching_of _ _ [] rfl (by simp)
    rcases andThen_eq_some h with ⟨s1, e, h1, rfl⟩ | ⟨s1, h1, h2⟩
    · exact watching_trans _ _ _ h0 (dispatch_closed watching_closed env fuel _ _ _ h1)
    · exact watching_trans _ _ _
        (watching_trans _ _ _ h0 (dispatch_closed watching_closed env fuel _ _ _ h1))
        (watching_trans _ _ _ (stop_children_watching _ s1)
          (tryRestartOrTerminate_watching env fuel _ _ h2))
  have hplain : (∀ w, message ≠ .otherStopped w) → Watching s r.1 →
      ∃ evs, r.1.world.trace = s.world.trace ++ evs ∧
        (∀ p : PID, p ∈ r.1.cell.watching.items →
          (p ∈ s.cell.watching.items ∧ message ≠ .otherStopped p) ∨
          ∃ w, Event.sendSystemMessage p (.watch w) ∈ evs) ∧
        (∀ p : PID, p ∈ s.cell.watching.items → message ≠ .otherStopped p →
          p ∈ r.1.cell.watching.items ∨ ∃ w, Event.sendSystemMessage p (.unwatch w) ∈ evs) :=
    fun hne hg => key s rfl (fun p => ⟨fun h => ⟨h, hne p⟩, fun h => h.1⟩) hg
  cases message with
  | stop => exact hplain (by simp) (hdisp true _ hret)
  | restart => exact hplain (by simp) (hdisp false _ hret)
  | otherStopped Who =>
    refine key { s with cell := { s.cell with
        children := s.cell.children.Remove Who
        watching := s.cell.watching.Remove Who } } rfl ?_
      (tryRestartOrTerminate_watching env fuel _ _ hret)
    intro p
    show p ∈ (s.cell.watching.Remove Who).items ↔ _
    rw [mem_Remove]
    constructor
    · rintro ⟨h1, h2⟩
      exact ⟨h1, fun h => h2 (by cases h; rfl)⟩
    · rintro ⟨h1, h2⟩
      exact ⟨h1, fun h => h2 (by rw [h])⟩
  | watch w =>
    cases hret
    exact hplain (by simp) (watching_of _ _ [] rfl (by simp))
  | unwatch w =>
    cases hret
    exact hplain (by simp) (watching_of _ _ [] rfl (by simp))
  | failure Who reason =>
    refine hplain (by simp) ?_
    simp only [actorCell.invokeSystemMessage, actorCell.handleFailure] at hret
    split at hret
    · cases hret; exact watching_of _ _ [.sendSystemMessage Who .resume] rfl rfl
    · cases hret; exact watching_of _ _ [.sendSystemMessage Who .restart] rfl rfl
    · cases hret; exact watching_of _ _ [.sendSystemMessage Who .stop] rfl rfl
    · split at hret
      · rename_i parent _
        cases hret
        exact watching_of _ _ [.sendSystemMessage parent (.failure Who reason)] rfl rfl
      · cases hret; exact watching_closed.context.refl s
  | resume =>
    cases hret
    exact hplain (by simp) (watching_of _ _ [.resume s.cell.self] rfl rfl)
  | unknown t =>
    cases hret
    exact hplain (by simp) (watching_closed.context.refl s)

theorem chainHead_incarnateActor (env : Env) (s : State) :
    ∃ f, (actorCell.incarnateActor env s).cell.chainHead = some f := by
  unfold actorCell.chainHead
  split
  · rename_i receive _
    exact ⟨receive, rfl⟩
  · exact ⟨_, rfl⟩

theorem values_of_empty (env : Env) (n : Nat) (h : hashset) (he : h.Empty = true) :
    h.Values (env.range n) = [] := by
  have hitems : h.items = [] := List.isEmpty_iff.mp he
  have hp : (h.Values (env.range n)).Perm h.items := env.range_perm _ _
  rw [hitems] at hp
  exact List.Perm.eq_nil hp

theorem drainStash_of_empty (env : Env) (fuel n : Nat) (s : State)
    (h : s.cell.stash.getD [] = []) : actorCell.drainStash env fuel n s = some (s, none) := by
  unfold actorCell.drainStash
  cases hst : s.cell.stash with
  | none => rfl
  | some st =>
    rw [hst] at h
    simp at h
    subst h
    rfl

theorem reverseEnv_dispatch_keeps (fuel : Nat) (md : UserMessage) (s0 : State)
    (r : State × Option Reason)
    (h : actorCell.invokeUserMessage reverseEnv fuel md s0 = some r) :
    r.1.cell.stash = s0.cell.stash ∧ r.1.cell.behavior = s0.cell.behavior ∧
    r.1.cell.children = s0.cell.children := by
  have hn : ∀ (fuel : Nat) (s : State),
      actorCell.Next reverseEnv fuel s = actorCell.Next chainEnv fuel s := by
    intro fuel
    induction fuel with
    | zero => intro s; rfl
    | succ n ih =>
      intro s
      have hfun : actorCell.Next reverseEnv n = actorCell.Next chainEnv n := funext ih
      simp only [actorCell.Next, hfun]
      rfl
  have : actorCell.invokeUserMessage reverseEnv fuel md s0 =
      actorCell.invokeUserMessage chainEnv fuel md s0 := by
    unfold actorCell.invokeUserMessage
    simp only [hn]
    rfl
  rw [this] at h
  exact chainEnv_dispatch_keeps fuel md s0 r h

theorem stopped_notification_count (env : Env) (fuel : Nat) (s : State)
    (r : State × Option Reason) (x : PID)
    (hret : actorCell.invokeUserMessage env fuel ⟨.Stopped, none⟩ (unregisterPID s.cell.self s)
      = some r) :
    ∃ s' evs, actorCell.stopped env fuel s = some (s', none) ∧
      s'.world.trace = s.world.trace ++ evs ∧
      evs.count (.sendSystemMessage x (.otherStopped s.cell.self)) =
        if x ∈ s.cell.watchers.items then 1 else 0 := by
  obtain ⟨s1, o⟩ := r
  obtain ⟨ho, hd⟩ := invokeUserMessage_dispatched env fuel _ _ _ hret
  simp only at ho hd
  subst ho
  obtain ⟨evs, ht, hp⟩ := hd.trace
  have hw : s1.cell.watchers = s.cell.watchers := hd.watchers
  have hself : s1.cell.self = s.cell.self := hd.self
  have hperm : (s1.cell.watchers.Values (env.range s1.world.trace.length)).Perm
      s.cell.watchers.items := by
    rw [hw]
    exact env.range_perm _ _
  have hnd := hperm.nodup_iff.mpr s.cell.watchers.nodup
  refine ⟨(s1.cell.watchers.Values (env.range s1.world.trace.length)).foldl
      (fun acc watcher => watcher.sendSystemMessage (.otherStopped s1.cell.self) acc) s1,
    [.unregisterPID s.cell.self, .dispatch ⟨.Stopped, none⟩] ++ evs ++
      (s1.cell.watchers.Values (env.range s1.world.trace.length)).map
        (fun w => Event.sendSystemMessage w (.otherStopped s.cell.self)), ?_, ?_, ?_⟩
  · unfold actorCell.stopped
    rw [hret]
    rfl
  · simp only [PID.sendSystemMessage]
    rw [foldl_emit]
    simp only [hself, ht]
    simp [unregisterPID, State.emit]
  · rw [List.count_append, List.count_append,
      count_fromDispatch (.sendSystemMessage x (.otherStopped s.cell.self)) rfl evs hp,
      count_notifications x s.cell.self s.cell.self _ hnd]
    simp [hperm.mem_iff]

/-- C6: for a handle `x` that is not among the watchers, processing
`Watch{Watcher: x}` and then `Unwatch{Watcher: x}` gives back the state, and
with it the watchers set; a finalize stop after both sends no
`OtherStopped{Who: self}` to `x`, a finalize stop after the `Watch` alone sends
exactly one.  Assumed: the two dispatches of `Stopped` at hand return, the one
of the finalize stop after both messages and the one after the `Watch`
alone. -/
theorem watch_then_unwatch_cancels_notification (env : Env) (fuel : Nat) (s : State) (x : PID)
    (rA rB : State × Option Reason)
    (hx : x ∉ s.cell.watchers.items)
    (hA : actorCell.invokeUserMessage env fuel ⟨.Stopped, none⟩ (unregisterPID s.cell.self
      { s with cell := { s.cell with watchers := (s.cell.watchers.Add x).Remove x } }) = some rA)
    (hB : actorCell.invokeUserMessage env fuel ⟨.Stopped, none⟩ (unregisterPID s.cell.self
      { s with cell := { s.cell with watchers := s.cell.watchers.Add x } }) = some rB) :
    ∃ s1 s2,
      actorCell.invokeSystemMessage env fuel (.watch x) s = some (s1, none) ∧
      actorCell.invokeSystemMessage env fuel (.unwatch x) s1 = some (s2, none) ∧
      s2.cell.watchers = s.cell.watchers ∧ s2 = s ∧
      x ∈ s1.cell.watchers.items ∧
      (∃ s3 evs, actorCell.stopped env fuel s2 = some (s3, none) ∧
        s3.world.trace = s2.world.trace ++ evs ∧
        evs.count (.sendSystemMessage x (.otherStopped s.cell.self)) = 0) ∧
      (∃ s3 evs, actorCell.stopped env fuel s1 = some (s3, none) ∧
        s3.world.trace = s1.world.trace ++ evs ∧
        evs.count (.sendSystemMessage x (.otherStopped s.cell.self)) = 1) := by
  have hadd : (s.cell.watchers.Add x).items = s.cell.watchers.items ++ [x] := by
    simp [hashset.Add, hx]
  have hrem : (s.cell.watchers.Add x).Remove x = s.cell.watchers := by
    apply hashset_ext
    simp only [hashset.Remove, hadd]
    rw [List.erase_append_right _ hx]
    simp
  have hmem : x ∈ (s.cell.watchers.Add x).items := by
    rw [hadd]
    simp
  refine ⟨{ s with cell := { s.cell with watchers := s.cell.watchers.Add x } },
    { s with cell := { s.cell with watchers := (s.cell.watchers.Add x).Remove x } },
    rfl, rfl, hrem, ?_, hmem, ?_, ?_⟩
  · rw [hrem]
  · obtain ⟨s3, evs, h1, h2, h3⟩ := stopped_notification_count env fuel _ rA x hA
    refine ⟨s3, evs, h1, h2, ?_⟩
    rw [h3]
    simp only [hrem]
    exact if_neg hx
  · obtain ⟨s3, evs, h1, h2, h3⟩ := stopped_notification_count env fuel _ rB x hB
    refine ⟨s3, evs, h1, h2, ?_⟩
    rw [h3]
    exact if_pos hmem

/-- Witness for C6: the cell of `busyCell`, whose chain runs through middleware
and `AutoReceive` to the behavior, and a handle `y` that is not a watcher. -/
theorem watch_then_unwatch_cancels_notification_witness :
    ∃ s1 s2,
      actorCell.invokeSystemMessage reverseEnv 3 (.watch ⟨"y", 11⟩) busyCell = some (s1, none) ∧
      actorCell.invokeSystemMessage reverseEnv 3 (.unwatch ⟨"y", 11⟩) s1 = some (s2, none) ∧
      s2.cell.watchers = busyCell.cell.watchers ∧ s2 = busyCell ∧
      (⟨"y", 11⟩ : PID) ∈ s1.cell.watchers.items ∧
      (∃ s3 evs, actorCell.stopped reverseEnv 3 s2 = some (s3, none) ∧
        s3.world.trace = s2.world.trace ++ evs ∧
        evs.count (.sendSystemMessage ⟨"y", 11⟩ (.otherStopped busyCell.cell.self)) = 0) ∧
      (∃ s3 evs, actorCell.stopped reverseEnv 3 s1 = some (s3, none) ∧
        s3.world.trace = s1.world.trace ++ evs ∧
        evs.count (.sendSystemMessage ⟨"y", 11⟩ (.otherStopped busyCell.cell.self)) = 1) :=
  watch_then_unwatch_cancels_notification reverseEnv 3 busyCell ⟨"y", 11⟩ _ _
    (by decide) rfl rfl

/-- C8 (counterexample): a cell without children whose receive functions
neither fault nor spawn, but call `Become` on `Started`: after `Restart` the
behavior stack is what the handler chose, not the `Receive` of the new actor. -/
theorem handleRestart_behavior_changed_by_Started_handler :
    ∃ s', actorCell.invokeSystemMessage becomingEnv 2 .restart
        ⟨sampleCell ⟨"a", 1⟩ (some ⟨"p", 6⟩), sampleWorld⟩ = some (s', none) ∧
      s'.world.trace = [.dispatch ⟨.Restarting, none⟩, .invoke 0 .Restarting none,
        .dispatch ⟨.Started, none⟩, .invoke 0 .Started none] ∧
      s'.cell.children.Empty = true ∧
      s'.cell.actor = becomingEnv.ProduceActor (sampleCell ⟨"a", 1⟩ (some ⟨"p", 6⟩)).props 0 ∧
      s'.cell.behavior = [7] ∧
      s'.cell.behavior ≠ [s'.cell.actor.Receive] := by
  refine ⟨_, rfl, ?_, ?_, ?_, ?_, ?_⟩ <;> decide

/-- C8 (amended): a cell without children, whose chain starts with the receive
function `first`, under user code whose dispatches leave the behavior stack and
the children as they found them, processes `Restart`; the dispatches of
`Restarting` and `Started` at hand and the loop over the stash return.  Then
processing `Restart` returns what the loop returns; the trace grows by the
dispatch of `Restarting` with the call of `first`, then the dispatch of
`Started` with the call of the receive function the chain starts with once the
new actor is in place, then the dispatches of the loop.  Afterwards the actor
is the one newly made by the producer of the props, the behavior stack holds
exactly its `Receive`, `self`, `parent` and the watchers are unchanged,
`stopping` is false and there are no children.  The outcome is normal, with an
empty stash, unless the loop popped a value that is not a `UserMessage`; it is
normal when the stash is empty after `Started`. -/
theorem handleRestart_incarnates_fresh_actor (env : Env) (fuel : Nat) (s : State)
    (r1 r2 r3 : State × Option Reason) (first : Receive)
    (hchildren : s.cell.children.Empty = true)
    (hfirst : s.cell.chainHead = some first)
    (hkeep : ∀ md s0 r, actorCell.invokeUserMessage env fuel md s0 = some r →
      r.1.cell.behavior = s0.cell.behavior ∧ r.1.cell.children = s0.cell.children)
    (h1 : actorCell.invokeUserMessage env fuel ⟨.Restarting, none⟩
      { s with cell := { s.cell with stopping := false } } = some r1)
    (h2 : actorCell.invokeUserMessage env fuel ⟨.Started, none⟩
      (actorCell.incarnateActor env r1.1) = some r2)
    (h3 : actorCell.drainStash env fuel fuel r2.1 = some r3) :
    actorCell.invokeSystemMessage env fuel .restart s = some r3 ∧
    (∃ (first2 : Receive) (calls : List (Receive × UserMessage)) (evs : List Event),
      (actorCell.incarnateActor env r1.1).cell.chainHead = some first2 ∧
      r3.1.world.trace = s.world.trace ++ evs ∧
      Delivered ((first, ⟨.Restarting, none⟩) :: (first2, ⟨.Started, none⟩) :: calls) evs) ∧
    r3.1.cell.actor = env.ProduceActor s.cell.props s.world.produced ∧
    r3.1.cell.behavior = [r3.1.cell.actor.Receive] ∧
    r3.1.cell.self = s.cell.self ∧ r3.1.cell.parent = s.cell.parent ∧
    r3.1.cell.watchers = s.cell.watchers ∧
    r3.1.cell.stopping = false ∧ r3.1.cell.children.Empty = true ∧
    (r3.2 = none ∨
      r3.2 = some "interface conversion: interface {} is not actor.UserMessage") ∧
    (r3.2 = none → r3.1.cell.stash.getD [] = []) ∧
    (r2.1.cell.stash.getD [] = [] → r3.2 = none) := by
  obtain ⟨s1, o1⟩ := r1
  obtain ⟨s2, o2⟩ := r2
  obtain ⟨ho1, d1⟩ := invokeUserMessage_dispatched env fuel _ _ _ h1
  obtain ⟨ho2, d2⟩ := invokeUserMessage_dispatched env fuel _ _ _ h2
  simp only at ho1 ho2 d1 d2 h2 h3
  subst ho1
  subst ho2
  have hfirst1 : ({ s with cell := { s.cell with stopping := false } } : State).cell.chainHead
      = some first := hfirst
  obtain ⟨body1, t1, p1⟩ := invokeUserMessage_delivers env fuel _ _ _ first h1 hfirst1
  obtain ⟨first2, hf2⟩ := chainHead_incarnateActor env s1
  obtain ⟨body2, t2, p2⟩ := invokeUserMessage_delivers env fuel _ _ _ first2 h2 hf2
  have hk2 := dispatch_closed headKept_closed env fuel _ _ _ h2
  obtain ⟨calls, evs3, t3, dl3, e3, o3, _⟩ :=
    drainStash_delivered env fuel fuel s2 r3 h3 (chainHead_of_headKept hk2 first2 hf2)
  obtain ⟨f1, f2, f3, f4, _, f6⟩ := drainStash_frame env fuel fuel s2 r3 h3
  obtain ⟨fb, fc⟩ := f6 hkeep
  obtain ⟨kb1, kc1⟩ := hkeep _ _ _ h1
  obtain ⟨kb2, kc2⟩ := hkeep _ _ _ h2
  simp only at t1 t2 kb1 kc1 kb2 kc2
  have hc1 : s1.cell.children.Empty = true := by rw [kc1]; exact hchildren
  have hs1 : s1.cell.stopping = false := d1.stopping
  have hv1 : s1.cell.children.Values (env.range s1.world.trace.length) = [] :=
    values_of_empty env _ _ hc1
  have hrun : actorCell.invokeSystemMessage env fuel .restart s = some r3 := by
    simp only [actorCell.invokeSystemMessage, actorCell.handleRestart, h1, Result.andThen, hv1,
      List.foldl_nil, actorCell.tryRestartOrTerminate, hc1, hs1, actorCell.restart, h2]
    exact h3
  refine ⟨hrun, ⟨first2, calls, _, hf2, ?_, .cons first ⟨.Restarting, none⟩ body1 _ _ p1
      (.cons first2 ⟨.Started, none⟩ body2 calls evs3 p2 dl3)⟩,
    ?_, ?_, ?_, ?_, ?_, ?_, ?_, o3, e3, ?_⟩
  · rw [t3, t2]
    show s1.world.trace ++ _ ++ _ = _
    rw [t1]
    simp
  · rw [f1, d2.actor]
    show env.ProduceActor s1.cell.props s1.world.produced = _
    rw [d1.props, d1.produced]
  · rw [fb, kb2, f1, d2.actor]
    rfl
  · rw [f2, d2.self]
    exact d1.self
  · rw [f3, d2.parent]
    exact d1.parent
  · rw [f4, d2.watchers]
    exact d1.watchers
  · rw [drainStash_stopping env fuel _ _ _ h3, d2.stopping]
    exact hs1
  · rw [fc, kc2]
    exact hc1
  · intro he
    rw [drainStash_of_empty env fuel fuel s2 he] at h3
    cases h3
    rfl

/-- Witness for C8 (amended): the cell of `lonelyCell`, made by `NewActorCell`
with middleware and `AutoReceive`, under user code whose receive functions call
`Next` and return; and the run itself. -/
theorem handleRestart_incarnates_fresh_actor_witness :
    (∃ r3, actorCell.invokeSystemMessage reverseEnv 3 .restart lonelyCell = some r3 ∧
      (∃ (first2 : Receive) (calls : List (Receive × UserMessage)) (evs : List Event),
        r3.1.world.trace = lonelyCell.world.trace ++ evs ∧
        Delivered ((1, ⟨.Restarting, none⟩) :: (first2, ⟨.Started, none⟩) :: calls) evs) ∧
      r3.1.cell.actor = reverseEnv.ProduceActor lonelyCell.cell.props lonelyCell.world.produced ∧
      r3.1.cell.behavior = [r3.1.cell.actor.Receive] ∧
      r3.1.cell.self = lonelyCell.cell.self ∧ r3.1.cell.parent = lonelyCell.cell.parent ∧
      r3.1.cell.watchers = lonelyCell.cell.watchers ∧
      r3.1.cell.stopping = false ∧ r3.1.cell.children.Empty = true ∧
      r3.2 = none) ∧
    ∃ s', actorCell.invokeSystemMessage reverseEnv 3 .restart lonelyCell = some (s', none) ∧
      s'.world.trace = [.dispatch ⟨.Restarting, none⟩,
        .invoke 1 .Restarting none, .invoke 0 .Restarting none, .invoke 9 .Restarting none,
        .dispatch ⟨.Started, none⟩,
        .invoke 1 .Started none, .invoke 0 .Started none, .invoke 9 .Started none] ∧
      lonelyCell.cell.actor = ⟨0, 9⟩ ∧ s'.cell.actor = ⟨1, 9⟩ := by
  refine ⟨?_, _, rfl, by decide, by decide, by decide⟩
  obtain ⟨a1, ⟨first2, calls, evs, _, a2, a3⟩, a4, a5, a6, a7, a8, a9, a10, _, _, a13⟩ :=
    handleRestart_incarnates_fresh_actor reverseEnv 3 lonelyCell _ _ _ 1 (by decide) rfl
      (fun md s0 r h => (reverseEnv_dispatch_keeps 3 md s0 r h).2) rfl rfl rfl
  exact ⟨_, a1, ⟨first2, calls, evs, a2, a3⟩, a4, a5, a6, a7, a8, a9, a10, a13 (by decide)⟩

/-- C16: whenever processing a system message returns or panics, the children
afterwards are the children before, without `w` when the message is
`OtherStopped{Who: w}`, together with the handles spawned while it was
processed; and the watching set afterwards is the one before, without `w` when
the message is `OtherStopped{Who: w}`, up to the handles that were sent a
`Watch` or an `Unwatch` while it was processed.  `OtherStopped{Who: w}` is
processed as the termination predicate on the cell with `w` removed from
children and from watching, and when a child is left the result is that cell
and nothing else.  `SpawnNamed` and `Spawn` add exactly the returned handle to
children and to watching and send it `Watch{Watcher: self}`; `Add` and `Remove`
change the membership of that one handle only, and a handle at another address
is another handle, whatever its identity; `Watch`, `Unwatch`, `Become`,
`BecomeStacked`, `UnbecomeStacked` and `Stash` leave the children alone; and
any code run through the context changes the children only by spawning. -/
theorem children_change_only_by_spawn_and_otherStopped (env : Env) (fuel : Nat)
    (message : SystemMessage) (s : State) (r : State × Option Reason)
    (hret : actorCell.invokeSystemMessage env fuel message s = some r) :
    (∃ evs, r.1.world.trace = s.world.trace ++ evs ∧
      ∀ p : PID, p ∈ r.1.cell.children.items ↔
        (p ∈ s.cell.children.items ∧ message ≠ .otherStopped p) ∨
        ∃ props parent, Event.spawn p props parent ∈ evs) ∧
    (∃ evs, r.1.world.trace = s.world.trace ++ evs ∧
      (∀ p : PID, p ∈ r.1.cell.watching.items →
        (p ∈ s.cell.watching.items ∧ message ≠ .otherStopped p) ∨
        ∃ w, Event.sendSystemMessage p (.watch w) ∈ evs) ∧
      (∀ p : PID, p ∈ s.cell.watching.items → message ≠ .otherStopped p →
        p ∈ r.1.cell.watching.items ∨ ∃ w, Event.sendSystemMessage p (.unwatch w) ∈ evs)) ∧
    (∀ w (s0 : State),
      actorCell.invokeSystemMessage env fuel (.otherStopped w) s0 =
        actorCell.tryRestartOrTerminate env fuel { s0 with cell := { s0.cell with
          children := s0.cell.children.Remove w, watching := s0.cell.watching.Remove w } } ∧
      ((s0.cell.children.Remove w).Empty = false →
        actorCell.invokeSystemMessage env fuel (.otherStopped w) s0 =
          some ({ s0 with cell := { s0.cell with
            children := s0.cell.children.Remove w,
            watching := s0.cell.watching.Remove w } }, none))) ∧
    (∀ props name (s0 : State),
      (actorCell.SpawnNamed props name s0).2.cell.children =
        s0.cell.children.Add (actorCell.SpawnNamed props name s0).1 ∧
      (actorCell.SpawnNamed props name s0).2.cell.watching =
        s0.cell.watching.Add (actorCell.SpawnNamed props name s0).1 ∧
      (actorCell.SpawnNamed props name s0).2.world.trace = s0.world.trace ++
        [.spawn (actorCell.SpawnNamed props name s0).1 props s0.cell.self,
          .sendSystemMessage (actorCell.SpawnNamed props name s0).1 (.watch s0.cell.self)]) ∧
    (∀ props (s0 : State),
      (actorCell.Spawn props s0).2.cell.children =
        s0.cell.children.Add (actorCell.Spawn props s0).1 ∧
      (actorCell.Spawn props s0).2.cell.watching =
        s0.cell.watching.Add (actorCell.Spawn props s0).1 ∧
      (actorCell.Spawn props s0).2.world.trace = s0.world.trace ++
        [.spawn (actorCell.Spawn props s0).1 props s0.cell.self,
          .sendSystemMessage (actorCell.Spawn props s0).1 (.watch s0.cell.self)]) ∧
    (∀ (h : hashset) (x p : PID), p ∈ (h.Add x).items ↔ p ∈ h.items ∨ p = x) ∧
    (∀ (h : hashset) (x p : PID), p ∈ (h.Remove x).items ↔ p ∈ h.items ∧ p ≠ x) ∧
    (∀ (h : hashset) (x p : PID), p.addr ≠ x.addr →
      (p ∈ (h.Remove x).items ↔ p ∈ h.items)) ∧
    (∀ who (s0 : State), (actorCell.Watch who s0).cell.children = s0.cell.children) ∧
    (∀ who (s0 : State), (actorCell.Unwatch who s0).cell.children = s0.cell.children) ∧
    (∀ b (s0 : State), (actorCell.Become b s0).cell.children = s0.cell.children) ∧
    (∀ b (s0 : State), (actorCell.BecomeStacked b s0).cell.children = s0.cell.children) ∧
    (∀ s0 : State, (actorCell.UnbecomeStacked s0).1.cell.children = s0.cell.children) ∧
    (∀ s0 : State, (actorCell.Stash s0).cell.children = s0.cell.children) ∧
    ∀ (p : Prog) (s0 : State) (r0 : State × Option Reason),
      p.run (actorCell.Next env fuel) s0 = some r0 → Grown s0 r0.1 := by
  refine ⟨invokeSystemMessage_children env fuel message s r hret,
    invokeSystemMessage_watching env fuel message s r hret, ?_, SpawnNamed_effect, ?_,
    mem_Add, mem_Remove, ?_, fun _ _ => rfl, fun _ _ => rfl, fun _ _ => rfl, fun _ _ => rfl, ?_,
    fun _ => rfl, ?_⟩
  · intro w s0
    refine ⟨rfl, fun hne => ?_⟩
    simp only [actorCell.invokeSystemMessage, actorCell.handleOtherStopped,
      actorCell.tryRestartOrTerminate, hne]
    rfl
  · intro props s0
    exact SpawnNamed_effect props (getAutoId s0).1 (getAutoId s0).2
  · intro h x p hne
    rw [mem_Remove]
    constructor
    · intro hp; exact hp.1
    · intro hp
      exact ⟨hp, fun he => hne (by rw [he])⟩
  · intro s0
    unfold actorCell.UnbecomeStacked
    split <;> rfl
  · intro p s0 r0 h
    exact run_closed grown_closed (Next_closed grown_closed env fuel) p s0 r0 h

/-- Witness for C16: the cell of `watchingCell`, which has the child `c` and
watches `c` and `w`, gets `OtherStopped` from `w`: `w` leaves the watching set,
the child stays. -/
theorem children_change_only_by_spawn_and_otherStopped_witness :
    ∃ r, actorCell.invokeSystemMessage quietEnv 1 (.otherStopped ⟨"w", 8⟩)
        ⟨watchingCell, sampleWorld⟩ = some r ∧
      (∃ evs, r.1.world.trace = sampleWorld.trace ++ evs ∧
        ∀ p : PID, p ∈ r.1.cell.children.items ↔
          (p ∈ watchingCell.children.items ∧
            SystemMessage.otherStopped ⟨"w", 8⟩ ≠ .otherStopped p) ∨
          ∃ props parent, Event.spawn p props parent ∈ evs) ∧
      (∃ evs, r.1.world.trace = sampleWorld.trace ++ evs ∧
        (∀ p : PID, p ∈ r.1.cell.watching.items →
          (p ∈ watchingCell.watching.items ∧
            SystemMessage.otherStopped ⟨"w", 8⟩ ≠ .otherStopped p) ∨
          ∃ w, Event.sendSystemMessage p (.watch w) ∈ evs) ∧
        (∀ p : PID, p ∈ watchingCell.watching.items →
          SystemMessage.otherStopped ⟨"w", 8⟩ ≠ .otherStopped p →
          p ∈ r.1.cell.watching.items ∨ ∃ w, Event.sendSystemMessage p (.unwatch w) ∈ evs)) ∧
      r.1.cell.children.items = [⟨"c", 4⟩] ∧ r.1.cell.watching.items = [⟨"c", 4⟩] :=
  ⟨_, rfl, (children_change_only_by_spawn_and_otherStopped quietEnv 1 (.otherStopped ⟨"w", 8⟩)
    ⟨watchingCell, sampleWorld⟩ _ rfl).1,
    (children_change_only_by_spawn_and_otherStopped quietEnv 1 (.otherStopped ⟨"w", 8⟩)
    ⟨watchingCell, sampleWorld⟩ _ rfl).2.1, by decide, by decide⟩

end actor
